import Mathlib

/-!
Verification of the LaunchDarkly JSON flag utility (Python) against its
natural-language specification.  The Python data model and the functions of
`ld_json_flag/client.py`, `ld_json_flag/interactive.py` and
`ld_json_flag/cli.py` are shallowly embedded below; machine integers do not
occur (Python integers are unbounded), fallible code returns `Except`.
-/

/-- A Python value as it can appear after `json.load` / in the JSON payloads
this utility manipulates: `None`, `bool`, `int`, `str`, lists and dicts
(dicts keep insertion order, as Python dicts do; floats do not occur in any
of the verified scenarios and are omitted from the model). -/
inductive PyVal where
  | none
  | bool (b : Bool)
  | int (n : Int)
  | str (s : String)
  | list (xs : List PyVal)
  | dict (kvs : List (String × PyVal))
deriving Repr

/-- A Python exception, restricted to the kinds the embedded code can raise:
`ValueError(msg)`, `KeyError(key)`, `TypeError`, `AttributeError`, and the
`requests.exceptions.HTTPError` carrying the offending status code. -/
inductive PyErr where
  | valueError (msg : String)
  | keyError (key : String)
  | typeError (msg : String)
  | attributeError (msg : String)
  | httpError (status : Nat)
deriving Repr, DecidableEq

/-- Python truthiness for the embedded values: `None`, `False`, `0`, `""`,
`[]` and the empty dict are falsy, everything else is truthy. -/
def PyVal.truthy : PyVal → Bool
  | .none => false
  | .bool b => b
  | .int n => n != 0
  | .str s => !s.isEmpty
  | .list xs => !xs.isEmpty
  | .dict kvs => !kvs.isEmpty

/-- `isinstance(v, int)` in Python is true for `bool` as well, because `bool`
is a subclass of `int`; when it holds, this returns the integer value used in
comparisons (`True == 1`, `False == 0`). -/
def PyVal.asInstanceInt : PyVal → Option Int
  | .int n => some n
  | .bool b => some (if b then 1 else 0)
  | _ => Option.none

/-- `LaunchDarklyClient.validate_tcp_port_json` (client.py:23-55): checks that
the value is a dict, that it contains the key `"tcp_port"`, that the value at
that key is an `int` in the `isinstance` sense, and that it lies in
`[0, 65535]`; the first violated constraint raises the corresponding
`ValueError`, and on success the function returns `True`. -/
def validate_tcp_port_json (json_obj : PyVal) : Except PyErr Bool :=
  match json_obj with
  | .dict kvs =>
    match List.lookup "tcp_port" kvs with
    | Option.none => .error (.valueError "JSON must contain a tcp_port property")
    | Option.some port_value =>
      match port_value.asInstanceInt with
      | Option.none => .error (.valueError "tcp_port must be an integer")
      | Option.some n =>
        if n < 0 ∨ n > 65535 then
          .error (.valueError "tcp_port must be between 0 and 65535")
        else
          .ok true
  | _ => .error (.valueError "JSON must be an object")

/-- The value is a dict. -/
def PyVal.isDict : PyVal → Bool
  | .dict _ => true
  | _ => false

/-- C1: `validate_tcp_port_json` returns `True` exactly when its argument is a
dict containing the key `"tcp_port"` whose value is an integer (in Python's
`isinstance` sense) in `[0, 65535]`; otherwise it raises `ValueError` with the
exact message of the first violated constraint: "JSON must be an object" for a
non-dict, "JSON must contain a tcp_port property" for a missing key,
"tcp_port must be an integer" for a non-integer value, and
"tcp_port must be between 0 and 65535" for an out-of-range integer. -/
theorem validate_tcp_port_json_spec :
    (∀ j : PyVal, validate_tcp_port_json j = .ok true ↔
      ∃ kvs p n, j = .dict kvs ∧ List.lookup "tcp_port" kvs = some p ∧
        p.asInstanceInt = some n ∧ 0 ≤ n ∧ n ≤ 65535) ∧
    (∀ j : PyVal, j.isDict = false →
      validate_tcp_port_json j = .error (.valueError "JSON must be an object")) ∧
    (∀ kvs, List.lookup "tcp_port" kvs = Option.none →
      validate_tcp_port_json (.dict kvs) =
        .error (.valueError "JSON must contain a tcp_port property")) ∧
    (∀ kvs p, List.lookup "tcp_port" kvs = some p → p.asInstanceInt = Option.none →
      validate_tcp_port_json (.dict kvs) =
        .error (.valueError "tcp_port must be an integer")) ∧
    (∀ kvs p n, List.lookup "tcp_port" kvs = some p → p.asInstanceInt = some n →
      (n < 0 ∨ n > 65535) →
      validate_tcp_port_json (.dict kvs) =
        .error (.valueError "tcp_port must be between 0 and 65535")) := by
  refine ⟨?_, ?_, ?_, ?_, ?_⟩
  · intro j
    constructor
    · intro h
      match j with
      | .dict kvs =>
        match hl : List.lookup "tcp_port" kvs with
        | Option.none => simp [validate_tcp_port_json, hl] at h
        | Option.some p =>
          match hi : p.asInstanceInt with
          | Option.none => simp [validate_tcp_port_json, hl, hi] at h
          | Option.some n =>
            by_cases hr : n < 0 ∨ n > 65535
            · simp [validate_tcp_port_json, hl, hi, hr] at h
            · exact ⟨kvs, p, n, rfl, hl, hi, by omega, by omega⟩
      | .none => simp [validate_tcp_port_json] at h
      | .bool b => simp [validate_tcp_port_json] at h
      | .int n => simp [validate_tcp_port_json] at h
      | .str s => simp [validate_tcp_port_json] at h
      | .list xs => simp [validate_tcp_port_json] at h
    · rintro ⟨kvs, p, n, rfl, hl, hi, h0, h1⟩
      simp only [validate_tcp_port_json, hl, hi]
      have : ¬(n < 0 ∨ n > 65535) := by omega
      simp [this]
  · intro j h
    match j with
    | .dict kvs => simp [PyVal.isDict] at h
    | .none => rfl
    | .bool b => rfl
    | .int n => rfl
    | .str s => rfl
    | .list xs => rfl
  · intro kvs h
    simp [validate_tcp_port_json, h]
  · intro kvs p hl hi
    simp [validate_tcp_port_json, hl, hi]
  · intro kvs p n hl hi hr
    simp [validate_tcp_port_json, hl, hi, hr]

/-- Witness for C1: concrete evaluations discharging each hypothesis of
`validate_tcp_port_json_spec` at concrete inputs. -/
theorem validate_tcp_port_json_spec_witness :
    validate_tcp_port_json (.dict [("tcp_port", .int 443)]) = .ok true ∧
    validate_tcp_port_json (.list []) = .error (.valueError "JSON must be an object") ∧
    validate_tcp_port_json (.dict [("other", .int 1)]) =
      .error (.valueError "JSON must contain a tcp_port property") ∧
    validate_tcp_port_json (.dict [("tcp_port", .str "80")]) =
      .error (.valueError "tcp_port must be an integer") ∧
    validate_tcp_port_json (.dict [("tcp_port", .int 65536)]) =
      .error (.valueError "tcp_port must be between 0 and 65535") := by
  refine ⟨?_, ?_, ?_, ?_, ?_⟩
  · exact (validate_tcp_port_json_spec.1 (.dict [("tcp_port", .int 443)])).2
      ⟨[("tcp_port", .int 443)], .int 443, 443, rfl, rfl, rfl, by decide, by decide⟩
  · exact validate_tcp_port_json_spec.2.1 (.list []) rfl
  · exact validate_tcp_port_json_spec.2.2.1 [("other", .int 1)] rfl
  · exact validate_tcp_port_json_spec.2.2.2.1 [("tcp_port", .str "80")] (.str "80")
      rfl rfl
  · exact validate_tcp_port_json_spec.2.2.2.2 [("tcp_port", .int 65536)] (.int 65536) 65536
      rfl rfl (by decide)

/-- C9: `validate_tcp_port_json` accepts Python booleans as port values:
`{"tcp_port": True}` and `{"tcp_port": False}` both validate successfully,
because `bool` is a subclass of `int` and the check is an `isinstance` test
(`True == 1` and `False == 0` are both in range). -/
theorem validate_tcp_port_json_accepts_bool :
    validate_tcp_port_json (.dict [("tcp_port", .bool true)]) = .ok true ∧
    validate_tcp_port_json (.dict [("tcp_port", .bool false)]) = .ok true := by
  constructor <;> rfl

/-- The fixed API base URL (client.py:20). -/
def base_url : String := "https://app.launchdarkly.com/api/v2"

/-- An HTTP response as the client observes it: the status code, the raw text
body, and the value produced by `response.json()`. -/
structure HttpResponse where
  status_code : Nat
  text : String
  body : PyVal

/-- Outcome of one client operation: the returned value or the raised
exception, the lines printed to the console (only the validation and error
lines the spec discusses are tracked; purely informational prints are not),
and the URLs of the HTTP requests issued, in order. -/
structure OpOut (α : Type) where
  result : Except PyErr α
  log : List String
  requests : List String

/-- `response.raise_for_status()`, modelled from the requests library's
documented behaviour: raises `HTTPError` exactly for 4xx and 5xx status
codes. -/
def raise_for_status (r : HttpResponse) : Except PyErr Unit :=
  if 400 ≤ r.status_code ∧ r.status_code < 600 then .error (.httpError r.status_code)
  else .ok ()

/-- The status-check block every client operation runs after its request
(e.g. client.py:74-77): when the status is at least 400 it prints the status
and the response body and calls `raise_for_status`; otherwise it neither
prints nor raises. -/
def checkResponse (ctx : String) (r : HttpResponse) : Except PyErr Unit × List String :=
  if 400 ≤ r.status_code then
    (raise_for_status r,
     ["❌ Error " ++ ctx ++ ": " ++ toString r.status_code, "Response: " ++ r.text])
  else (.ok (), [])

/-- `v.get(k, default)`: dict lookup with a default; calling `.get` on a
non-dict raises `AttributeError`. -/
def pyGet (v : PyVal) (k : String) (default : PyVal) : Except PyErr PyVal :=
  match v with
  | .dict kvs => .ok ((List.lookup k kvs).getD default)
  | _ => .error (.attributeError "get")

/-- `v[k]` on a value expected to be a dict: a missing key raises `KeyError`,
a non-dict raises `TypeError`. -/
def pySubscript (v : PyVal) (k : String) : Except PyErr PyVal :=
  match v with
  | .dict kvs =>
    match List.lookup k kvs with
    | Option.some x => .ok x
    | Option.none => .error (.keyError k)
  | _ => .error (.typeError "subscript")

/-- Truthiness of an optional string (`None` and `""` are falsy). -/
def optStrTruthy : Option String → Bool
  | Option.none => false
  | Option.some s => !s.isEmpty

/-- `a or b` for optional strings, as in `project_key or self.project_key`. -/
def pyOrElse (a b : Option String) : Option String :=
  if optStrTruthy a then a else b

/-- `all_items.extend(x)` requires `x` to be iterable; in every scenario the
claims describe, `x` is a JSON array.  Iterating a non-list (Python would
iterate a string's characters or a dict's keys, or raise `TypeError`) is
modelled as `TypeError`. -/
def asPyList : PyVal → Except PyErr (List PyVal)
  | .list xs => .ok xs
  | _ => .error (.typeError "extend")

/-- The next-page computation of the pagination loop (client.py:82-86):
`url = None; links = data.get("_links", {}); if links and "next" in links and
links["next"]: url = links["next"].get("href")`.  A truthy non-dict `_links`
value is modelled as `TypeError`, and a non-string, non-`None` `href` as
`TypeError`; neither occurs in the scenarios the claims describe. -/
def nextUrlOf (data : PyVal) : Except PyErr (Option String) := do
  let links ← pyGet data "_links" (.dict [])
  if links.truthy then
    match links with
    | .dict lkvs =>
      match List.lookup "next" lkvs with
      | Option.some nxt =>
        if nxt.truthy then do
          let href ← pyGet nxt "href" .none
          match href with
          | .str u => pure (Option.some u)
          | .none => pure Option.none
          | _ => .error (.typeError "url")
        else pure Option.none
      | Option.none => pure Option.none
    | _ => .error (.typeError "in")
  else pure Option.none

/-- The pagination loop shared by `get_projects` (client.py:71-88) and
`get_feature_flags` (client.py:143-160): while the url is truthy, fetch it,
fail on an error status, extend the accumulator with `data.get("items", [])`,
and follow the next link.  The loop is given fuel; `none` means the fuel ran
out before the loop finished, which cannot happen for any finite page
chain. -/
def paginateLoop (fetch : String → HttpResponse) (ctx : String) :
    Nat → Option String → List PyVal → List String → List String →
    Option (OpOut (List PyVal))
  | 0, _, _, _, _ => Option.none
  | Nat.succ fuel, url, acc, log, reqs =>
    if optStrTruthy url then
      let u := url.getD ""
      let r := fetch u
      let (chk, clog) := checkResponse ctx r
      match chk with
      | .error e => some ⟨.error e, log ++ clog, reqs ++ [u]⟩
      | .ok _ =>
        match pyGet r.body "items" (.list []) with
        | .error e => some ⟨.error e, log ++ clog, reqs ++ [u]⟩
        | .ok itemsV =>
          match asPyList itemsV with
          | .error e => some ⟨.error e, log ++ clog, reqs ++ [u]⟩
          | .ok items =>
            match nextUrlOf r.body with
            | .error e => some ⟨.error e, log ++ clog, reqs ++ [u]⟩
            | .ok url2 =>
              paginateLoop fetch ctx fuel url2 (acc ++ items) (log ++ clog) (reqs ++ [u])
    else some ⟨.ok acc, log, reqs⟩

/-- `LaunchDarklyClient.get_projects` (client.py:57-88). -/
def get_projects (fetch : String → HttpResponse) (fuel : Nat) :
    Option (OpOut (List PyVal)) :=
  paginateLoop fetch "getting projects" fuel (some (base_url ++ "/projects")) [] [] []

/-- `LaunchDarklyClient.get_feature_flags` (client.py:121-160): resolves the
project key (argument `or` the client's key), raises `ValueError` when both
are falsy, then runs the pagination loop. -/
def get_feature_flags (self_pk pk_arg : Option String) (fetch : String → HttpResponse)
    (fuel : Nat) : Option (OpOut (List PyVal)) :=
  let pk := pyOrElse pk_arg self_pk
  if !optStrTruthy pk then
    some ⟨.error (.valueError "Project key is required to list feature flags"), [], []⟩
  else
    paginateLoop fetch "getting feature flags" fuel
      (some (base_url ++ "/flags/" ++ pk.getD "")) [] [] []

/-- `LaunchDarklyClient.get_environments` (client.py:90-119): one request to
the project endpoint, then `response.json().get("environments", [])`. -/
def get_environments (self_pk pk_arg : Option String) (response : HttpResponse) :
    OpOut PyVal :=
  let pk := pyOrElse pk_arg self_pk
  if !optStrTruthy pk then
    ⟨.error (.valueError "Project key is required to list environments"), [], []⟩
  else
    let url := base_url ++ "/projects/" ++ pk.getD ""
    let (chk, clog) := checkResponse "getting project details" response
    match chk with
    | .error e => ⟨.error e, clog, [url]⟩
    | .ok _ =>
      match pyGet response.body "environments" (.list []) with
      | .error e => ⟨.error e, clog, [url]⟩
      | .ok envs => ⟨.ok envs, clog, [url]⟩

/-- `LaunchDarklyClient.get_feature_flag` (client.py:162-190): one request to
the flag endpoint, returning `response.json()`. -/
def get_feature_flag (self_pk pk_arg : Option String) (flag_key : String)
    (response : HttpResponse) : OpOut PyVal :=
  let pk := pyOrElse pk_arg self_pk
  if !optStrTruthy pk then
    ⟨.error (.valueError "Project key is required to get a feature flag"), [], []⟩
  else
    let url := base_url ++ "/flags/" ++ pk.getD "" ++ "/" ++ flag_key
    let (chk, clog) := checkResponse "getting feature flag details" response
    match chk with
    | .error e => ⟨.error e, clog, [url]⟩
    | .ok _ => ⟨.ok response.body, clog, [url]⟩

/-- The per-variation validation loop of `create_feature_flag`
(client.py:213-219) and `update_flag_variations` (client.py:270-276):
`for i, variation in enumerate(variations): try:
validate_tcp_port_json(variation["value"]) except ValueError as e: raise
ValueError(f"Validation failed for variation (i+1): ...")`.  Only
`ValueError` is caught and re-raised with the 1-based index; a `KeyError`
from `variation["value"]` propagates unchanged.  Returns the loop's printed
"✅ Variation i is valid" lines. -/
def validateVariations : List PyVal → Nat → Except PyErr Unit × List String
  | [], _ => (.ok (), [])
  | v :: rest, i =>
    match pySubscript v "value" with
    | .error e => (.error e, [])
    | .ok pv =>
      match validate_tcp_port_json pv with
      | .error (.valueError msg) =>
        (.error (.valueError
          ("Validation failed for variation " ++ toString (i + 1) ++ ": " ++ msg)), [])
      | .error e => (.error e, [])
      | .ok _ =>
        let (res, log) := validateVariations rest (i + 1)
        (res, ("✅ Variation " ++ toString (i + 1) ++ " is valid") :: log)

/-- `LaunchDarklyClient.create_feature_flag` (client.py:192-248): resolves
the project key, validates every variation's `"value"` field, and only then
issues the POST request; a failed status prints and raises. -/
def create_feature_flag (self_pk pk_arg : Option String)
    (flag_key flag_name : String) (variations : List PyVal)
    (response : HttpResponse) : OpOut PyVal :=
  let pk := pyOrElse pk_arg self_pk
  if !optStrTruthy pk then
    ⟨.error (.valueError "Project key is required to create a feature flag"), [], []⟩
  else
    match validateVariations variations 0 with
    | (.error e, vlog) => ⟨.error e, vlog, []⟩
    | (.ok _, vlog) =>
      let url := base_url ++ "/flags/" ++ pk.getD ""
      let (chk, clog) := checkResponse "creating feature flag" response
      match chk with
      | .error e => ⟨.error e, vlog ++ clog, [url]⟩
      | .ok _ => ⟨.ok response.body, vlog ++ clog, [url]⟩

/-- `LaunchDarklyClient.update_flag_variations` (client.py:250-301): same
validation loop as `create_feature_flag`, then a PATCH request. -/
def update_flag_variations (self_pk pk_arg : Option String) (flag_key : String)
    (variations : List PyVal) (response : HttpResponse) : OpOut PyVal :=
  let pk := pyOrElse pk_arg self_pk
  if !optStrTruthy pk then
    ⟨.error (.valueError "Project key is required to update a feature flag"), [], []⟩
  else
    match validateVariations variations 0 with
    | (.error e, vlog) => ⟨.error e, vlog, []⟩
    | (.ok _, vlog) =>
      let url := base_url ++ "/flags/" ++ pk.getD "" ++ "/" ++ flag_key
      let (chk, clog) := checkResponse "updating feature flag variations" response
      match chk with
      | .error e => ⟨.error e, vlog ++ clog, [url]⟩
      | .ok _ => ⟨.ok response.body, vlog ++ clog, [url]⟩

/-- `LaunchDarklyClient.configure_environment_targeting` (client.py:303-350):
one PATCH request to the per-environment endpoint. -/
def configure_environment_targeting (self_pk pk_arg : Option String)
    (flag_key environment_key : String) (response : HttpResponse) : OpOut PyVal :=
  let pk := pyOrElse pk_arg self_pk
  if !optStrTruthy pk then
    ⟨.error (.valueError "Project key is required to configure targeting rules"), [], []⟩
  else
    let url := base_url ++ "/flags/" ++ pk.getD "" ++ "/" ++ flag_key
      ++ "/environments/" ++ environment_key
    let (chk, clog) :=
      checkResponse ("updating targeting rules for environment " ++ environment_key)
        response
    match chk with
    | .error e => ⟨.error e, clog, [url]⟩
    | .ok _ => ⟨.ok response.body, clog, [url]⟩

/-- The "items" array of a page body as the loop extracts it
(`data.get("items", [])`): `some` when extraction succeeds, with a missing
key giving the empty list. -/
def pageItemsOf (b : PyVal) : Option (List PyVal) :=
  match pyGet b "items" (.list []) with
  | .ok v =>
    match asPyList v with
    | .ok xs => some xs
    | .error _ => Option.none
  | .error _ => Option.none

/-- The next-page URL of a page body, when its computation succeeds. -/
def pageNextOf (b : PyVal) : Option (Option String) :=
  match nextUrlOf b with
  | .ok u => some u
  | .error _ => Option.none

theorem pageItemsOf_eq_iff (b : PyVal) (items : List PyVal) :
    pageItemsOf b = some items ↔ pyGet b "items" (.list []) = .ok (.list items) := by
  unfold pageItemsOf
  match hg : pyGet b "items" (.list []) with
  | .error e => simp
  | .ok v =>
    match v with
    | .list xs => simp [asPyList]
    | .none => simp [asPyList]
    | .bool b => simp [asPyList]
    | .int n => simp [asPyList]
    | .str s => simp [asPyList]
    | .dict kvs => simp [asPyList]

theorem pageNextOf_eq_iff (b : PyVal) (nxt : Option String) :
    pageNextOf b = some nxt ↔ nextUrlOf b = .ok nxt := by
  unfold pageNextOf
  match hg : nextUrlOf b with
  | .error e => simp
  | .ok u => simp

/-- The finite chain of pages the remote service serves starting from a given
URL: each page is fetched successfully (status below 400), contributes its
"items" array, and points to the next URL, until a page has no (truthy) next
link.  The second index collects the URLs fetched, the third the per-page
item lists, both in fetch order. -/
inductive FollowsChain (fetch : String → HttpResponse) :
    Option String → List String → List (List PyVal) → Prop
  | stop (url : Option String) :
      optStrTruthy url = false → FollowsChain fetch url [] []
  | step (u : String) (nxt : Option String) (items : List PyVal)
      (urls : List String) (pages : List (List PyVal)) :
      optStrTruthy (some u) = true →
      (fetch u).status_code < 400 →
      pageItemsOf (fetch u).body = some items →
      pageNextOf (fetch u).body = some nxt →
      FollowsChain fetch nxt urls pages →
      FollowsChain fetch (some u) (u :: urls) (items :: pages)

theorem paginateLoop_of_chain (fetch : String → HttpResponse) (ctx : String)
    (url : Option String) (urls : List String) (pages : List (List PyVal))
    (h : FollowsChain fetch url urls pages) :
    ∀ fuel, pages.length < fuel → ∀ acc log reqs,
      paginateLoop fetch ctx fuel url acc log reqs =
        some ⟨.ok (acc ++ pages.flatten), log, reqs ++ urls⟩ := by
  induction h with
  | stop url hu =>
    intro fuel hf acc log reqs
    match fuel with
    | Nat.succ f =>
      simp [paginateLoop, hu]
  | step u nxt items urls pages hu hs hi hn hchain ih =>
    intro fuel hf acc log reqs
    match fuel with
    | Nat.succ f =>
      have hs' : ¬ 400 ≤ (fetch u).status_code := by omega
      have hitems : pyGet (fetch u).body "items" (.list []) = .ok (.list items) :=
        (pageItemsOf_eq_iff _ _).1 hi
      have hnext : nextUrlOf (fetch u).body = .ok nxt :=
        (pageNextOf_eq_iff _ _).1 hn
      have hrec := ih f (by simpa using Nat.lt_of_succ_lt_succ hf)
        (acc ++ items) (log ++ []) (reqs ++ [u])
      simp only [paginateLoop, hu, if_true, checkResponse, hs', if_false,
        Option.getD_some, hitems, asPyList, hnext, if_neg hs']
      rw [hrec]
      simp [List.append_assoc]

/-- C2: `get_projects` and `get_feature_flags` return the concatenation, in
fetch order, of the "items" arrays of every page reached by following each
page's `_links.next.href` link, requesting exactly the URLs of the chain and
stopping exactly when a page has no next link; a page without an "items" key
contributes the empty list. -/
theorem pagination_concatenates_pages :
    (∀ (fetch : String → HttpResponse) (urls : List String)
        (pages : List (List PyVal)) (fuel : Nat),
      FollowsChain fetch (some (base_url ++ "/projects")) urls pages →
      pages.length < fuel →
      get_projects fetch fuel = some ⟨.ok pages.flatten, [], urls⟩) ∧
    (∀ (self_pk pk_arg : Option String) (fetch : String → HttpResponse)
        (urls : List String) (pages : List (List PyVal)) (fuel : Nat),
      optStrTruthy (pyOrElse pk_arg self_pk) = true →
      FollowsChain fetch
        (some (base_url ++ "/flags/" ++ (pyOrElse pk_arg self_pk).getD ""))
        urls pages →
      pages.length < fuel →
      get_feature_flags self_pk pk_arg fetch fuel = some ⟨.ok pages.flatten, [], urls⟩) ∧
    (∀ kvs, List.lookup "items" kvs = Option.none →
      pageItemsOf (.dict kvs) = some []) := by
  refine ⟨?_, ?_, ?_⟩
  · intro fetch urls pages fuel hchain hf
    unfold get_projects
    rw [paginateLoop_of_chain fetch _ _ urls pages hchain fuel hf [] [] []]
    simp
  · intro self_pk pk_arg fetch urls pages fuel hpk hchain hf
    unfold get_feature_flags
    simp only [hpk, Bool.not_true, Bool.false_eq_true, if_false]
    rw [paginateLoop_of_chain fetch _ _ urls pages hchain fuel hf [] [] []]
    simp
  · intro kvs h
    rw [pageItemsOf_eq_iff]
    simp [pyGet, h]

/-- Witness for C2: a two-page projects chain, a one-page flags chain, and a
page without an "items" key. -/
theorem pagination_concatenates_pages_witness :
    get_projects
      (fun u =>
        if u = "https://app.launchdarkly.com/api/v2/projects" then
          ⟨200, "", .dict [("items", .list [.int 1]),
            ("_links", .dict [("next", .dict [("href", .str "page2")])])]⟩
        else ⟨200, "", .dict [("items", .list [.int 2])]⟩)
      3 =
      some ⟨.ok [.int 1, .int 2], [],
        ["https://app.launchdarkly.com/api/v2/projects", "page2"]⟩ ∧
    get_feature_flags Option.none (some "proj")
      (fun _ => ⟨200, "", .dict [("items", .list [.str "f"])]⟩) 2 =
      some ⟨.ok [.str "f"], [],
        ["https://app.launchdarkly.com/api/v2/flags/proj"]⟩ ∧
    pageItemsOf (.dict [("_links", .dict [])]) = some [] := by
  refine ⟨?_, ?_, ?_⟩
  · exact pagination_concatenates_pages.1 _
      ["https://app.launchdarkly.com/api/v2/projects", "page2"]
      [[.int 1], [.int 2]] 3
      (FollowsChain.step _ (some "page2") [.int 1] _ _ rfl (by decide) rfl rfl
        (FollowsChain.step "page2" Option.none [.int 2] [] [] rfl (by decide) rfl rfl
          (FollowsChain.stop Option.none rfl)))
      (by decide)
  · exact pagination_concatenates_pages.2.1 Option.none (some "proj") _
      ["https://app.launchdarkly.com/api/v2/flags/proj"] [[.str "f"]] 2
      rfl
      (FollowsChain.step _ Option.none [.str "f"] [] [] rfl (by decide) rfl rfl
        (FollowsChain.stop Option.none rfl))
      (by decide)
  · exact pagination_concatenates_pages.2.2 [("_links", .dict [])] rfl

/-- A variation object that passes the per-variation validation: it has a
`"value"` entry and that value validates. -/
def variationPasses (v : PyVal) : Prop :=
  ∃ q, pySubscript v "value" = .ok q ∧ validate_tcp_port_json q = .ok true

theorem validateVariations_ok (vars : List PyVal)
    (h : ∀ v ∈ vars, variationPasses v) :
    ∀ i, (validateVariations vars i).1 = .ok () := by
  induction vars with
  | nil => intro i; rfl
  | cons v rest ih =>
    intro i
    obtain ⟨q, hq, hv⟩ := h v (by simp)
    have hrest := ih (fun w hw => h w (by simp [hw]))
    simp only [validateVariations, hq, hv]
    cases hpair : validateVariations rest (i + 1) with
    | mk res log =>
      have := hrest (i + 1)
      rw [hpair] at this
      simpa using this

theorem validateVariations_firstFail (pre : List PyVal) (bad : PyVal)
    (rest : List PyVal) (pv : PyVal) (msg : String)
    (hpre : ∀ v ∈ pre, variationPasses v)
    (hsub : pySubscript bad "value" = .ok pv)
    (hbad : validate_tcp_port_json pv = .error (.valueError msg)) :
    ∀ i, (validateVariations (pre ++ bad :: rest) i).1 =
      .error (.valueError
        ("Validation failed for variation " ++ toString (i + pre.length + 1) ++ ": " ++ msg)) := by
  induction pre with
  | nil =>
    intro i
    simp only [List.nil_append, validateVariations, hsub, hbad, List.length_nil]
  | cons v pre ih =>
    intro i
    obtain ⟨q, hq, hv⟩ := hpre v (by simp)
    have ihv := ih (fun w hw => hpre w (by simp [hw])) (i + 1)
    simp only [List.cons_append, validateVariations, hq, hv]
    cases hpair : validateVariations (pre ++ bad :: rest) (i + 1) with
    | mk res log =>
      rw [hpair] at ihv
      simp only at ihv
      subst ihv
      simp only [List.length_cons]
      have harith : i + 1 + pre.length + 1 = i + (pre.length + 1) + 1 := by omega
      rw [harith]

theorem validateVariations_subscriptErr (pre : List PyVal) (bad : PyVal)
    (rest : List PyVal) (e : PyErr)
    (hpre : ∀ v ∈ pre, variationPasses v)
    (hsub : pySubscript bad "value" = .error e) :
    ∀ i, (validateVariations (pre ++ bad :: rest) i).1 = .error e := by
  induction pre with
  | nil =>
    intro i
    simp only [List.nil_append, validateVariations, hsub]
  | cons v pre ih =>
    intro i
    obtain ⟨q, hq, hv⟩ := hpre v (by simp)
    have ihv := ih (fun w hw => hpre w (by simp [hw])) (i + 1)
    simp only [List.cons_append, validateVariations, hq, hv]
    cases hpair : validateVariations (pre ++ bad :: rest) (i + 1) with
    | mk res log =>
      rw [hpair] at ihv
      simpa using ihv

/-- C3: in `create_feature_flag` and `update_flag_variations` the tcp_port
rule is applied to every variation's `"value"` before the HTTP request: when
the variations list is `pre ++ bad :: rest` with every variation of `pre`
passing and `bad`'s value failing with message `msg`, both operations raise
`ValueError("Validation failed for variation i: msg")` with `i` the 1-based
index of the first failing variation, and issue no HTTP request at all. -/
theorem validation_precedes_request (self_pk pk_arg : Option String)
    (fk fn : String) (pre : List PyVal) (bad : PyVal) (rest : List PyVal)
    (pv : PyVal) (msg : String) (response : HttpResponse)
    (hpk : optStrTruthy (pyOrElse pk_arg self_pk) = true)
    (hpre : ∀ v ∈ pre, variationPasses v)
    (hsub : pySubscript bad "value" = .ok pv)
    (hbad : validate_tcp_port_json pv = .error (.valueError msg)) :
    ((create_feature_flag self_pk pk_arg fk fn (pre ++ bad :: rest) response).result =
       .error (.valueError
         ("Validation failed for variation " ++ toString (pre.length + 1) ++ ": " ++ msg)) ∧
     (create_feature_flag self_pk pk_arg fk fn (pre ++ bad :: rest) response).requests = []) ∧
    ((update_flag_variations self_pk pk_arg fk (pre ++ bad :: rest) response).result =
       .error (.valueError
         ("Validation failed for variation " ++ toString (pre.length + 1) ++ ": " ++ msg)) ∧
     (update_flag_variations self_pk pk_arg fk (pre ++ bad :: rest) response).requests = []) := by
  have hval := validateVariations_firstFail pre bad rest pv msg hpre hsub hbad 0
  rw [Nat.zero_add] at hval
  constructor
  · unfold create_feature_flag
    simp only [hpk, Bool.not_true, Bool.false_eq_true, if_false]
    cases hpair : validateVariations (pre ++ bad :: rest) 0 with
    | mk res log =>
      rw [hpair] at hval
      simp only at hval
      subst hval
      exact ⟨rfl, rfl⟩
  · unfold update_flag_variations
    simp only [hpk, Bool.not_true, Bool.false_eq_true, if_false]
    cases hpair : validateVariations (pre ++ bad :: rest) 0 with
    | mk res log =>
      rw [hpair] at hval
      simp only at hval
      subst hval
      exact ⟨rfl, rfl⟩

/-- Witness for C3: two valid variations followed by an out-of-range one; the
error names variation 3 and no request is sent. -/
theorem validation_precedes_request_witness :
    (create_feature_flag (some "proj") Option.none "k" "n"
        [.dict [("value", .dict [("tcp_port", .int 443)])],
         .dict [("value", .dict [("tcp_port", .int 8080)])],
         .dict [("value", .dict [("tcp_port", .int 70000)])]]
        ⟨200, "", .dict []⟩).result =
      .error (.valueError
        "Validation failed for variation 3: tcp_port must be between 0 and 65535") ∧
    (create_feature_flag (some "proj") Option.none "k" "n"
        [.dict [("value", .dict [("tcp_port", .int 443)])],
         .dict [("value", .dict [("tcp_port", .int 8080)])],
         .dict [("value", .dict [("tcp_port", .int 70000)])]]
        ⟨200, "", .dict []⟩).requests = [] := by
  have h := validation_precedes_request (some "proj") Option.none "k" "n"
    [.dict [("value", .dict [("tcp_port", .int 443)])],
     .dict [("value", .dict [("tcp_port", .int 8080)])]]
    (.dict [("value", .dict [("tcp_port", .int 70000)])]) []
    (.dict [("tcp_port", .int 70000)])
    "tcp_port must be between 0 and 65535" ⟨200, "", .dict []⟩
    rfl
    (by
      intro v hv
      simp only [List.mem_cons, List.not_mem_nil, or_false] at hv
      rcases hv with rfl | rfl
      · exact ⟨.dict [("tcp_port", .int 443)], rfl, rfl⟩
      · exact ⟨.dict [("tcp_port", .int 8080)], rfl, rfl⟩)
    rfl rfl
  exact h.1

/-- C10: when the first non-passing variation lacks a `"value"` key, both
`create_feature_flag` and `update_flag_variations` raise `KeyError` (not
`ValueError`) before any HTTP request is sent: the subscript
`variation["value"]` raises `KeyError` and the loop's handler catches only
`ValueError`. -/
theorem missing_value_key_raises_keyError (self_pk pk_arg : Option String)
    (fk fn : String) (pre : List PyVal) (kvs : List (String × PyVal))
    (rest : List PyVal) (response : HttpResponse)
    (hpk : optStrTruthy (pyOrElse pk_arg self_pk) = true)
    (hpre : ∀ v ∈ pre, variationPasses v)
    (hmiss : List.lookup "value" kvs = Option.none) :
    ((create_feature_flag self_pk pk_arg fk fn (pre ++ .dict kvs :: rest) response).result =
       .error (.keyError "value") ∧
     (create_feature_flag self_pk pk_arg fk fn (pre ++ .dict kvs :: rest) response).requests = []) ∧
    ((update_flag_variations self_pk pk_arg fk (pre ++ .dict kvs :: rest) response).result =
       .error (.keyError "value") ∧
     (update_flag_variations self_pk pk_arg fk (pre ++ .dict kvs :: rest) response).requests = []) := by
  have hsub : pySubscript (.dict kvs) "value" = .error (.keyError "value") := by
    simp [pySubscript, hmiss]
  have hval := validateVariations_subscriptErr pre (.dict kvs) rest (.keyError "value")
    hpre hsub 0
  constructor
  · unfold create_feature_flag
    simp only [hpk, Bool.not_true, Bool.false_eq_true, if_false]
    cases hpair : validateVariations (pre ++ .dict kvs :: rest) 0 with
    | mk res log =>
      rw [hpair] at hval
      simp only at hval
      subst hval
      exact ⟨rfl, rfl⟩
  · unfold update_flag_variations
    simp only [hpk, Bool.not_true, Bool.false_eq_true, if_false]
    cases hpair : validateVariations (pre ++ .dict kvs :: rest) 0 with
    | mk res log =>
      rw [hpair] at hval
      simp only at hval
      subst hval
      exact ⟨rfl, rfl⟩

/-- Witness for C10: a variation without a `"value"` key raises
`KeyError("value")` from `update_flag_variations`, with no request issued. -/
theorem missing_value_key_raises_keyError_witness :
    (update_flag_variations (some "proj") Option.none "k"
        [.dict [("name", .str "Prod")]] ⟨200, "", .dict []⟩).result =
      .error (.keyError "value") ∧
    (update_flag_variations (some "proj") Option.none "k"
        [.dict [("name", .str "Prod")]] ⟨200, "", .dict []⟩).requests = [] := by
  have h := missing_value_key_raises_keyError (some "proj") Option.none "k" "n"
    [] [("name", .str "Prod")] [] ⟨200, "", .dict []⟩
    rfl (by intro v hv; simp at hv) rfl
  exact h.2

theorem checkResponse_cases (ctx : String) (r : HttpResponse) :
    (400 ≤ r.status_code ∧ r.status_code < 600 ∧
      checkResponse ctx r = (.error (.httpError r.status_code),
        ["❌ Error " ++ ctx ++ ": " ++ toString r.status_code, "Response: " ++ r.text])) ∨
    (400 ≤ r.status_code ∧ 600 ≤ r.status_code ∧
      checkResponse ctx r = (.ok (),
        ["❌ Error " ++ ctx ++ ": " ++ toString r.status_code, "Response: " ++ r.text])) ∨
    (r.status_code < 400 ∧ checkResponse ctx r = (.ok (), [])) := by
  unfold checkResponse raise_for_status
  by_cases h4 : 400 ≤ r.status_code
  · by_cases h6 : r.status_code < 600
    · exact Or.inl ⟨h4, h6, by simp [h4, h6]⟩
    · exact Or.inr (Or.inl ⟨h4, by omega, by simp [h4, h6]⟩)
  · exact Or.inr (Or.inr ⟨by omega, by simp [h4]⟩)

/-- C4 counterexample: the claim says every operation raises exactly when the
status is not 2xx, but the code only checks `status_code >= 400`: on a 301
redirect status — which is not a 2xx success — `get_environments` neither
prints nor raises and returns normally. -/
theorem non2xx_not_sufficient_to_raise :
    ¬(200 ≤ 301 ∧ 301 < 300) ∧
    (get_environments (some "proj") Option.none
      ⟨301, "Moved", .dict [("environments", .list [])]⟩).result = .ok (.list []) ∧
    (get_environments (some "proj") Option.none
      ⟨301, "Moved", .dict [("environments", .list [])]⟩).log = [] := by
  exact ⟨by omega, rfl, rfl⟩

theorem paginateLoop_stop (fetch : String → HttpResponse) (ctx : String)
    (fuel : Nat) (url : Option String) (acc : List PyVal) (log reqs : List String)
    (hu : optStrTruthy url = false) :
    paginateLoop fetch ctx (Nat.succ fuel) url acc log reqs = some ⟨.ok acc, log, reqs⟩ := by
  simp [paginateLoop, hu]

theorem paginateLoop_step_httpErr (fetch : String → HttpResponse) (ctx : String)
    (fuel : Nat) (u : String) (acc : List PyVal) (log reqs : List String)
    (e : PyErr) (elog : List String)
    (hu : optStrTruthy (some u) = true)
    (hc : checkResponse ctx (fetch u) = (.error e, elog)) :
    paginateLoop fetch ctx (Nat.succ fuel) (some u) acc log reqs =
      some ⟨.error e, log ++ elog, reqs ++ [u]⟩ := by
  simp only [paginateLoop, hu, if_true, Option.getD_some, hc]

theorem paginateLoop_step_ok (fetch : String → HttpResponse) (ctx : String)
    (fuel : Nat) (u : String) (acc : List PyVal) (log reqs : List String)
    (elog : List String) (items : List PyVal) (nxt : Option String)
    (hu : optStrTruthy (some u) = true)
    (hc : checkResponse ctx (fetch u) = (.ok (), elog))
    (hitems : pyGet (fetch u).body "items" (.list []) = .ok (.list items))
    (hnext : nextUrlOf (fetch u).body = .ok nxt) :
    paginateLoop fetch ctx (Nat.succ fuel) (some u) acc log reqs =
      paginateLoop fetch ctx fuel nxt (acc ++ items) (log ++ elog) (reqs ++ [u]) := by
  simp only [paginateLoop, hu, if_true, Option.getD_some, hc, hitems, asPyList, hnext]

theorem paginateLoop_singlePage (fetch : String → HttpResponse) (ctx : String)
    (u : String) (f : Nat) (acc : List PyVal) (log reqs : List String)
    (items : List PyVal)
    (hu : optStrTruthy (some u) = true)
    (hi : pageItemsOf (fetch u).body = some items)
    (hn : pageNextOf (fetch u).body = some Option.none) :
    ∃ out, paginateLoop fetch ctx (f + 2) (some u) acc log reqs = some out ∧
      (out.result = .error (.httpError (fetch u).status_code) ↔
        400 ≤ (fetch u).status_code ∧ (fetch u).status_code < 600) ∧
      (¬(400 ≤ (fetch u).status_code ∧ (fetch u).status_code < 600) →
        out.result = .ok (acc ++ items)) ∧
      (400 ≤ (fetch u).status_code →
        out.log = log ++ ["❌ Error " ++ ctx ++ ": " ++ toString (fetch u).status_code,
          "Response: " ++ (fetch u).text]) := by
  have hitems : pyGet (fetch u).body "items" (.list []) = .ok (.list items) :=
    (pageItemsOf_eq_iff _ _).1 hi
  have hnext : nextUrlOf (fetch u).body = .ok Option.none :=
    (pageNextOf_eq_iff _ _).1 hn
  rcases checkResponse_cases ctx (fetch u) with ⟨h4, h6, hc⟩ | ⟨h4, h6, hc⟩ | ⟨h4, hc⟩
  · refine ⟨_, paginateLoop_step_httpErr fetch ctx (f + 1) u acc log reqs _ _ hu hc,
      ?_, ?_, ?_⟩
    · simp [h4, h6]
    · intro hcon; exact absurd ⟨h4, h6⟩ hcon
    · intro _; rfl
  · have hstep := paginateLoop_step_ok fetch ctx (f + 1) u acc log reqs _ items
      Option.none hu hc hitems hnext
    rw [paginateLoop_stop fetch ctx f Option.none (acc ++ items) _ _ rfl] at hstep
    refine ⟨_, hstep, ?_, ?_, ?_⟩
    · simp; omega
    · intro _; rfl
    · intro _; rfl
  · have hstep := paginateLoop_step_ok fetch ctx (f + 1) u acc log reqs _ items
      Option.none hu hc hitems hnext
    rw [paginateLoop_stop fetch ctx f Option.none (acc ++ items) _ _ rfl] at hstep
    refine ⟨_, hstep, ?_, ?_, ?_⟩
    · simp; omega
    · intro _; simp
    · intro h400; omega

theorem optStrTruthy_append (a b : String) (h : optStrTruthy (some a) = true) :
    optStrTruthy (some (a ++ b)) = true := by
  cases a with
  | mk la =>
    cases b with
    | mk lb =>
      match la with
      | [] => exact absurd h (by decide)
      | c :: cs =>
        have he : String.mk (c :: cs) ++ String.mk lb = String.mk (c :: (cs ++ lb)) := rfl
        rw [he]
        simp [optStrTruthy, String.isEmpty]
        have hpos := Char.utf8Size_pos c
        simp [String.Pos.ext_iff]
        omega

theorem PyVal.isDict_iff (v : PyVal) : v.isDict = true ↔ ∃ kvs, v = .dict kvs := by
  cases v <;> simp [PyVal.isDict]

/-- C4 (amended): every client operation raises `HTTPError` exactly when the
response status code lies in `[400, 599]` — the code checks
`status_code >= 400` and `raise_for_status` raises only for 4xx/5xx — and it
prints the status and the response body whenever the status is at least 400,
also when it does not raise; on every status outside `[400, 599]`, including
non-2xx statuses such as 1xx and 3xx, the operation returns normally. -/
theorem http_raise_iff_4xx_5xx :
    (∀ (self_pk pk_arg : Option String) (r : HttpResponse),
      optStrTruthy (pyOrElse pk_arg self_pk) = true →
      r.body.isDict = true →
      ((get_environments self_pk pk_arg r).result = .error (.httpError r.status_code) ↔
        400 ≤ r.status_code ∧ r.status_code < 600) ∧
      (¬(400 ≤ r.status_code ∧ r.status_code < 600) →
        ∃ v, (get_environments self_pk pk_arg r).result = .ok v) ∧
      (400 ≤ r.status_code →
        ∃ pre, (get_environments self_pk pk_arg r).log = pre ++
          ["❌ Error getting project details: " ++ toString r.status_code,
           "Response: " ++ r.text])) ∧
    (∀ (self_pk pk_arg : Option String) (fk : String) (r : HttpResponse),
      optStrTruthy (pyOrElse pk_arg self_pk) = true →
      ((get_feature_flag self_pk pk_arg fk r).result = .error (.httpError r.status_code) ↔
        400 ≤ r.status_code ∧ r.status_code < 600) ∧
      (¬(400 ≤ r.status_code ∧ r.status_code < 600) →
        ∃ v, (get_feature_flag self_pk pk_arg fk r).result = .ok v) ∧
      (400 ≤ r.status_code →
        ∃ pre, (get_feature_flag self_pk pk_arg fk r).log = pre ++
          ["❌ Error getting feature flag details: " ++ toString r.status_code,
           "Response: " ++ r.text])) ∧
    (∀ (self_pk pk_arg : Option String) (fk fn : String) (vars : List PyVal)
        (r : HttpResponse),
      optStrTruthy (pyOrElse pk_arg self_pk) = true →
      (∀ v ∈ vars, variationPasses v) →
      ((create_feature_flag self_pk pk_arg fk fn vars r).result =
          .error (.httpError r.status_code) ↔
        400 ≤ r.status_code ∧ r.status_code < 600) ∧
      (¬(400 ≤ r.status_code ∧ r.status_code < 600) →
        ∃ v, (create_feature_flag self_pk pk_arg fk fn vars r).result = .ok v) ∧
      (400 ≤ r.status_code →
        ∃ pre, (create_feature_flag self_pk pk_arg fk fn vars r).log = pre ++
          ["❌ Error creating feature flag: " ++ toString r.status_code,
           "Response: " ++ r.text])) ∧
    (∀ (self_pk pk_arg : Option String) (fk : String) (vars : List PyVal)
        (r : HttpResponse),
      optStrTruthy (pyOrElse pk_arg self_pk) = true →
      (∀ v ∈ vars, variationPasses v) →
      ((update_flag_variations self_pk pk_arg fk vars r).result =
          .error (.httpError r.status_code) ↔
        400 ≤ r.status_code ∧ r.status_code < 600) ∧
      (¬(400 ≤ r.status_code ∧ r.status_code < 600) →
        ∃ v, (update_flag_variations self_pk pk_arg fk vars r).result = .ok v) ∧
      (400 ≤ r.status_code →
        ∃ pre, (update_flag_variations self_pk pk_arg fk vars r).log = pre ++
          ["❌ Error updating feature flag variations: " ++ toString r.status_code,
           "Response: " ++ r.text])) ∧
    (∀ (self_pk pk_arg : Option String) (fk ek : String) (r : HttpResponse),
      optStrTruthy (pyOrElse pk_arg self_pk) = true →
      ((configure_environment_targeting self_pk pk_arg fk ek r).result =
          .error (.httpError r.status_code) ↔
        400 ≤ r.status_code ∧ r.status_code < 600) ∧
      (¬(400 ≤ r.status_code ∧ r.status_code < 600) →
        ∃ v, (configure_environment_targeting self_pk pk_arg fk ek r).result = .ok v) ∧
      (400 ≤ r.status_code →
        ∃ pre, (configure_environment_targeting self_pk pk_arg fk ek r).log = pre ++
          ["❌ Error " ++ ("updating targeting rules for environment " ++ ek) ++ ": " ++
            toString r.status_code, "Response: " ++ r.text])) ∧
    (∀ (fetch : String → HttpResponse) (f : Nat) (items : List PyVal),
      pageItemsOf (fetch (base_url ++ "/projects")).body = some items →
      pageNextOf (fetch (base_url ++ "/projects")).body = some Option.none →
      ∃ out, get_projects fetch (f + 2) = some out ∧
        (out.result = .error (.httpError (fetch (base_url ++ "/projects")).status_code) ↔
          400 ≤ (fetch (base_url ++ "/projects")).status_code ∧
            (fetch (base_url ++ "/projects")).status_code < 600) ∧
        (¬(400 ≤ (fetch (base_url ++ "/projects")).status_code ∧
            (fetch (base_url ++ "/projects")).status_code < 600) →
          out.result = .ok items) ∧
        (400 ≤ (fetch (base_url ++ "/projects")).status_code →
          out.log = ["❌ Error getting projects: " ++
            toString (fetch (base_url ++ "/projects")).status_code,
            "Response: " ++ (fetch (base_url ++ "/projects")).text])) ∧
    (∀ (self_pk pk_arg : Option String) (fetch : String → HttpResponse) (f : Nat)
        (items : List PyVal),
      optStrTruthy (pyOrElse pk_arg self_pk) = true →
      pageItemsOf (fetch (base_url ++ "/flags/" ++ (pyOrElse pk_arg self_pk).getD "")).body
        = some items →
      pageNextOf (fetch (base_url ++ "/flags/" ++ (pyOrElse pk_arg self_pk).getD "")).body
        = some Option.none →
      ∃ out, get_feature_flags self_pk pk_arg fetch (f + 2) = some out ∧
        (out.result = .error (.httpError
            (fetch (base_url ++ "/flags/" ++ (pyOrElse pk_arg self_pk).getD "")).status_code) ↔
          400 ≤ (fetch (base_url ++ "/flags/" ++ (pyOrElse pk_arg self_pk).getD "")).status_code ∧
            (fetch (base_url ++ "/flags/" ++ (pyOrElse pk_arg self_pk).getD "")).status_code < 600) ∧
        (¬(400 ≤ (fetch (base_url ++ "/flags/" ++ (pyOrElse pk_arg self_pk).getD "")).status_code ∧
            (fetch (base_url ++ "/flags/" ++ (pyOrElse pk_arg self_pk).getD "")).status_code < 600) →
          out.result = .ok items)) := by
  refine ⟨?_, ?_, ?_, ?_, ?_, ?_, ?_⟩
  · intro self_pk pk_arg r hpk hbody
    obtain ⟨kvs, hkvs⟩ := (PyVal.isDict_iff r.body).1 hbody
    unfold get_environments
    simp only [hpk, Bool.not_true, Bool.false_eq_true, if_false]
    rcases checkResponse_cases "getting project details" r with
      ⟨h4, h6, hc⟩ | ⟨h4, h6, hc⟩ | ⟨h4, hc⟩ <;>
      simp only [hc, hkvs, pyGet]
    · exact ⟨by simp [h4, h6], fun hcon => absurd ⟨h4, h6⟩ hcon, fun _ => ⟨[], by simp⟩⟩
    · refine ⟨by simp; omega, fun _ => ⟨_, rfl⟩, fun _ => ⟨[], by simp⟩⟩
    · refine ⟨by simp; omega, fun _ => ⟨_, rfl⟩, fun h400 => by omega⟩
  · intro self_pk pk_arg fk r hpk
    unfold get_feature_flag
    simp only [hpk, Bool.not_true, Bool.false_eq_true, if_false]
    rcases checkResponse_cases "getting feature flag details" r with
      ⟨h4, h6, hc⟩ | ⟨h4, h6, hc⟩ | ⟨h4, hc⟩ <;> simp only [hc]
    · exact ⟨by simp [h4, h6], fun hcon => absurd ⟨h4, h6⟩ hcon, fun _ => ⟨[], by simp⟩⟩
    · refine ⟨by simp; omega, fun _ => ⟨_, rfl⟩, fun _ => ⟨[], by simp⟩⟩
    · refine ⟨by simp; omega, fun _ => ⟨_, rfl⟩, fun h400 => by omega⟩
  · intro self_pk pk_arg fk fn vars r hpk hvars
    unfold create_feature_flag
    simp only [hpk, Bool.not_true, Bool.false_eq_true, if_false]
    cases hpair : validateVariations vars 0 with
    | mk res vlog =>
      have hres := validateVariations_ok vars hvars 0
      rw [hpair] at hres
      simp only at hres
      subst hres
      rcases checkResponse_cases "creating feature flag" r with
        ⟨h4, h6, hc⟩ | ⟨h4, h6, hc⟩ | ⟨h4, hc⟩ <;> simp only [hc]
      · exact ⟨by simp [h4, h6], fun hcon => absurd ⟨h4, h6⟩ hcon, fun _ => ⟨vlog, by simp⟩⟩
      · refine ⟨by simp; omega, fun _ => ⟨_, rfl⟩, fun _ => ⟨vlog, by simp⟩⟩
      · refine ⟨by simp; omega, fun _ => ⟨_, rfl⟩, fun h400 => by omega⟩
  · intro self_pk pk_arg fk vars r hpk hvars
    unfold update_flag_variations
    simp only [hpk, Bool.not_true, Bool.false_eq_true, if_false]
    cases hpair : validateVariations vars 0 with
    | mk res vlog =>
      have hres := validateVariations_ok vars hvars 0
      rw [hpair] at hres
      simp only at hres
      subst hres
      rcases checkResponse_cases "updating feature flag variations" r with
        ⟨h4, h6, hc⟩ | ⟨h4, h6, hc⟩ | ⟨h4, hc⟩ <;> simp only [hc]
      · exact ⟨by simp [h4, h6], fun hcon => absurd ⟨h4, h6⟩ hcon, fun _ => ⟨vlog, by simp⟩⟩
      · refine ⟨by simp; omega, fun _ => ⟨_, rfl⟩, fun _ => ⟨vlog, by simp⟩⟩
      · refine ⟨by simp; omega, fun _ => ⟨_, rfl⟩, fun h400 => by omega⟩
  · intro self_pk pk_arg fk ek r hpk
    unfold configure_environment_targeting
    simp only [hpk, Bool.not_true, Bool.false_eq_true, if_false]
    rcases checkResponse_cases ("updating targeting rules for environment " ++ ek) r with
      ⟨h4, h6, hc⟩ | ⟨h4, h6, hc⟩ | ⟨h4, hc⟩ <;> simp only [hc]
    · exact ⟨by simp [h4, h6], fun hcon => absurd ⟨h4, h6⟩ hcon, fun _ => ⟨[], by simp⟩⟩
    · refine ⟨by simp; omega, fun _ => ⟨_, rfl⟩, fun _ => ⟨[], by simp⟩⟩
    · refine ⟨by simp; omega, fun _ => ⟨_, rfl⟩, fun h400 => by omega⟩
  · intro fetch f items hi hn
    obtain ⟨out, hout, hiff, hok, hlog⟩ := paginateLoop_singlePage fetch "getting projects"
      (base_url ++ "/projects") f [] [] [] items (by decide) hi hn
    exact ⟨out, hout, hiff, hok, fun h400 => by simpa using hlog h400⟩
  · intro self_pk pk_arg fetch f items hpk hi hn
    obtain ⟨out, hout, hiff, hok, hlog⟩ := paginateLoop_singlePage fetch
      "getting feature flags" (base_url ++ "/flags/" ++ (pyOrElse pk_arg self_pk).getD "")
      f [] [] [] items
      (optStrTruthy_append (base_url ++ "/flags/") ((pyOrElse pk_arg self_pk).getD "")
        (by decide)) hi hn
    refine ⟨out, ?_, hiff, hok⟩
    unfold get_feature_flags
    simp only [hpk, Bool.not_true, Bool.false_eq_true, if_false]
    exact hout

/-- Witness for C4 (amended): a 404 raises `HTTPError`, a 204 (non-400)
returns normally, and a 301 also returns normally. -/
theorem http_raise_iff_4xx_5xx_witness :
    (get_feature_flag (some "p") Option.none "f" ⟨404, "nf", .dict []⟩).result =
      .error (.httpError 404) ∧
    (∃ v, (get_feature_flag (some "p") Option.none "f" ⟨204, "", .dict []⟩).result = .ok v) ∧
    (∃ v, (get_feature_flag (some "p") Option.none "f" ⟨301, "", .dict []⟩).result = .ok v) := by
  refine ⟨?_, ?_, ?_⟩
  · exact (http_raise_iff_4xx_5xx.2.1 (some "p") Option.none "f"
      ⟨404, "nf", .dict []⟩ rfl).1.2 (by exact ⟨by decide, by decide⟩)
  · exact (http_raise_iff_4xx_5xx.2.1 (some "p") Option.none "f"
      ⟨204, "", .dict []⟩ rfl).2.1 (by intro hcon; exact absurd hcon.1 (by decide))
  · exact (http_raise_iff_4xx_5xx.2.1 (some "p") Option.none "f"
      ⟨301, "", .dict []⟩ rfl).2.1 (by intro hcon; exact absurd hcon.1 (by decide))

/-- The names defined at top level of `ld_json_flag/interactive.py`
(interactive.py:10-315): there is no `validate_flags_workflow` among them. -/
def interactive_module_defs : List String :=
  ["select_from_list", "select_project", "select_flag", "edit_json_in_editor",
   "update_flag_variations_workflow", "create_flag_workflow", "interactive_workflow"]

/-- The names `ld_json_flag/cli.py` imports from `ld_json_flag.interactive`
(cli.py:10-15). -/
def cli_imports_from_interactive : List String :=
  ["update_flag_variations_workflow", "create_flag_workflow", "interactive_workflow",
   "validate_flags_workflow"]

/-- C5: the CLI module imports `validate_flags_workflow` from
`ld_json_flag.interactive`, but the interactive module defines no function of
that name, so importing the CLI module raises `ImportError` and `main` can
never run the validate subcommand; the function the claim (and the repo's own
tests, which import it too) requires does not exist. -/
theorem validate_flags_workflow_missing :
    "validate_flags_workflow" ∈ cli_imports_from_interactive ∧
    "validate_flags_workflow" ∉ interactive_module_defs := by
  constructor
  · decide
  · decide

/-- The scan of a flag's variations for a dict-valued `"value"`
(interactive.py:89-94): `some true` on the first variation whose `value` is a
dict, `some false` when none is, and `none` when a non-dict variation is hit
first (its `.get` raises `AttributeError`, which the surrounding handler
catches, skipping the flag). -/
def scanVariationsForJson : List PyVal → Option Bool
  | [] => some false
  | v :: rest =>
    match v with
    | .dict vk =>
      match List.lookup "value" vk with
      | Option.some (.dict _) => some true
      | _ => scanVariationsForJson rest
    | _ => Option.none

/-- `select_project` (interactive.py:45-64): `client.get_projects()` is called
outside any try block, so an error from it propagates to the caller; the
selection menu (which re-prompts until a valid index or quit) is modelled by
an oracle supplying a valid index or `none` for quitting/empty list. -/
def select_project (getProjectsRes : Except PyErr (List PyVal))
    (selection : Option Nat) : Except PyErr (Option String) := do
  let projects ← getProjectsRes
  match selection with
  | Option.none => pure Option.none
  | Option.some i =>
    if h : i < projects.length then
      match pySubscript (projects.get ⟨i, h⟩) "key" with
      | .ok (.str k) => pure (Option.some k)
      | .ok _ => .error (.typeError "key")
      | .error e => .error e
    else pure Option.none

/-- Whether a flag passes the JSON-variations filter of `select_flag`
(interactive.py:83-96): the detail fetch and the variation scan run inside a
try block catching every exception, so an error merely skips the flag. -/
def flagHasJsonVariations (details : Except PyErr PyVal) : Bool :=
  match details with
  | .error _ => false
  | .ok d =>
    match pyGet d "variations" (.list []) with
    | .error _ => false
    | .ok (.list vs) => (scanVariationsForJson vs).getD false
    | .ok _ => false

/-- `select_flag` (interactive.py:67-108): `client.get_feature_flags` is
called outside any try block, so its errors propagate; each flag's detail
fetch is try-wrapped and errors only skip that flag. -/
def select_flag (getFlagsRes : Except PyErr (List PyVal))
    (details : PyVal → Except PyErr PyVal) (selection : Option Nat) :
    Except PyErr (Option String) := do
  let flags ← getFlagsRes
  let json_flags := flags.filter (fun f => flagHasJsonVariations (details f))
  if json_flags.isEmpty then pure Option.none
  else
    match selection with
    | Option.none => pure Option.none
    | Option.some i =>
      if h : i < json_flags.length then
        match pySubscript (json_flags.get ⟨i, h⟩) "key" with
        | .ok (.str k) => pure (Option.some k)
        | .ok _ => .error (.typeError "key")
        | .error e => .error e
      else pure Option.none

/-- Python's `str.lower()` restricted to the ASCII range, which is all the
workflow compares (`confirm.lower() != 'y'`). -/
def pyLower (s : String) : String := String.mk (s.data.map Char.toLower)

/-- Iterating a Python value with a `for` loop: a list yields its elements, a
dict its keys, a string its one-character substrings; other values raise
`TypeError`. -/
def pyIterItems (v : PyVal) : Except PyErr (List PyVal) :=
  match v with
  | .list xs => .ok xs
  | .dict kvs => .ok (kvs.map (fun kv => PyVal.str kv.1))
  | .str s => .ok (s.data.map (fun c => PyVal.str (String.mk [c])))
  | _ => .error (.typeError "not iterable")

/-- The body of the variation display loops (interactive.py:216-217 and
230-231): each iteration evaluates `var.get('name')` and
`json.dumps(var.get('value'))`, so a non-dict element raises
`AttributeError` from `.get` (`json.dumps` itself is total on the model's
values). -/
def displayVariationsLoop : List PyVal → Except PyErr Unit
  | [] => .ok ()
  | var :: rest =>
    match pyGet var "name" .none with
    | .error e => .error e
    | .ok _ =>
      match pyGet var "value" .none with
      | .error e => .error e
      | .ok _ => displayVariationsLoop rest

/-- The variation display loops at interactive.py:215-217 and 229-231:
`for i, var in enumerate(variations): print(f"... var.get('name') ...
json.dumps(var.get('value'))")`.  They run outside any try block, so a
truthy non-iterable variations value raises `TypeError` and a non-dict
element raises `AttributeError`, and either propagates to the caller. -/
def displayVariations (v : PyVal) : Except PyErr Unit := do
  let items ← pyIterItems v
  displayVariationsLoop items

/-- `update_flag_variations_workflow` (interactive.py:177-245).  The client
calls appear as oracles: project selection (errors propagate through
`select_project`), flag selection (errors propagate through `select_flag`),
the flag-detail fetch (try-wrapped: an error prints and returns `False`), the
editor result (`edit_json_in_editor` errors propagate), the confirmation
input, and the update call (try-wrapped: an error prints and returns
`False`).  The two display loops over the current and the edited variations
(interactive.py:215-217, 229-231) also run outside any try block, so their
`TypeError`/`AttributeError` propagates. -/
def update_flag_variations_workflow (pk_arg : Option String)
    (getProjectsRes : Except PyErr (List PyVal)) (projSelection : Option Nat)
    (getFlagsRes : Except PyErr (List PyVal)) (details : PyVal → Except PyErr PyVal)
    (flagSelection : Option Nat) (getFlagRes : Except PyErr PyVal)
    (editRes : Except PyErr (Option PyVal)) (confirmInput : String)
    (updateRes : Except PyErr PyVal) : Except PyErr Bool := do
  let pk ← (if optStrTruthy pk_arg then pure pk_arg
            else select_project getProjectsRes projSelection)
  if !optStrTruthy pk then pure false
  else do
    let fk ← select_flag getFlagsRes details flagSelection
    if !optStrTruthy fk then pure false
    else
      match getFlagRes with
      | .error _ => pure false
      | .ok flag => do
        let variationsV ← pyGet flag "variations" (.list [])
        if !variationsV.truthy then pure false
        else do
          displayVariations variationsV
          let edited ← editRes
          match edited with
          | Option.none => pure false
          | Option.some ev =>
            if !ev.truthy then pure false
            else do
              displayVariations ev
              if pyLower confirmInput != "y" then pure false
              else
                match updateRes with
                | .error _ => pure false
                | .ok _ => pure true

/-- `create_flag_workflow` (interactive.py:248-312): project selection runs
outside any try block (errors propagate); loading the variations file and the
create call are try-wrapped (an error prints and returns `False`); every
per-environment targeting call is try-wrapped, so `envRuleOutcomes` cannot
affect the result, and the function ends with `return True`. -/
def create_flag_workflow (pk_arg client_pk : Option String)
    (getProjectsRes : Except PyErr (List PyVal)) (projSelection : Option Nat)
    (loadVariationsRes : Except PyErr PyVal) (createRes : Except PyErr PyVal)
    (envRuleOutcomes : List (Except PyErr PyVal)) : Except PyErr Bool := do
  let proceed ←
    (if !optStrTruthy pk_arg && !optStrTruthy client_pk then do
      let pk ← select_project getProjectsRes projSelection
      pure (optStrTruthy pk)
    else pure true)
  if !proceed then pure false
  else
    match loadVariationsRes with
    | .error _ => pure false
    | .ok _vars =>
      match createRes with
      | .error _ => pure false
      | .ok _ =>
        let _ := envRuleOutcomes
        pure true


/-- One hexadecimal digit character (lower case), for `0 ≤ n < 16`. -/
def hexDigitChar (n : Nat) : Char :=
  if n < 10 then Char.ofNat (48 + n) else Char.ofNat (87 + n)

/-- `json.dumps` escaping of a single character inside a string literal:
quote, backslash and the control characters get escapes (`\"`, `\\`, `\n`,
`\t`, `\r`, `\b`, `\f`, `\u00XX`); every other character is written verbatim.
(CPython's default `ensure_ascii=True` would also escape non-ASCII
characters, but `json.load` decodes the escaped and the verbatim spelling to
the same string, so the reparse result is unaffected.) -/
def escapeChar (c : Char) : List Char :=
  if c = '"' then ['\\', '"']
  else if c = '\\' then ['\\', '\\']
  else if c = '\n' then ['\\', 'n']
  else if c = '\t' then ['\\', 't']
  else if c = '\r' then ['\\', 'r']
  else if c.toNat = 8 then ['\\', 'b']
  else if c.toNat = 12 then ['\\', 'f']
  else if c.toNat < 32 then
    ['\\', 'u', '0', '0', hexDigitChar (c.toNat / 16), hexDigitChar (c.toNat % 16)]
  else [c]

/-- Escape a whole string body. -/
def escapeString (s : List Char) : List Char := (s.map escapeChar).flatten

/-- The decimal digits of a natural number, most significant first. -/
def natToDigits (n : Nat) : List Char :=
  if n < 10 then [Char.ofNat (48 + n)]
  else natToDigits (n / 10) ++ [Char.ofNat (48 + n % 10)]
decreasing_by exact Nat.div_lt_self (by omega) (by omega)

/-- Decimal rendering of a Python integer. -/
def intToChars (n : Int) : List Char :=
  if n < 0 then '-' :: natToDigits (-n).toNat else natToDigits n.toNat

/-- `n` spaces, for indentation. -/
def spaces (n : Nat) : List Char := List.replicate n ' '

mutual

/-- `json.dumps(v, indent=2)` (as called in interactive.py:158): every array
element and object member on its own line, indented two further than the
enclosing bracket, item separator `,`, key separator `: `, empty containers
inline. `ind` is the current indentation. -/
def dumpsVal (ind : Nat) : PyVal → List Char
  | .none => 'n' :: 'u' :: ['l', 'l']
  | .bool true => 't' :: ('r' :: ['u', 'e'])
  | .bool false => 'f' :: 'a' :: 'l' :: ['s', 'e']
  | .int n => intToChars n
  | .str s => '"' :: (escapeString s.data ++ ['"'])
  | .list [] => ['[', ']']
  | .list (x :: xs) =>
    '[' :: '\n' :: (spaces (ind + 2) ++ dumpsVal (ind + 2) x
      ++ dumpsListRest (ind + 2) xs ++ '\n' :: (spaces ind ++ [']']))
  | .dict [] => [Char.ofNat 123, Char.ofNat 125]
  | .dict (kv :: kvs) =>
    Char.ofNat 123 :: '\n' :: (spaces (ind + 2) ++ dumpsEntry (ind + 2) kv
      ++ dumpsDictRest (ind + 2) kvs ++ '\n' :: (spaces ind ++ [Char.ofNat 125]))

/-- The remaining elements of a non-empty array, each preceded by `,\n` and
indentation. -/
def dumpsListRest (ind : Nat) : List PyVal → List Char
  | [] => []
  | x :: xs => ',' :: '\n' :: (spaces ind ++ dumpsVal ind x ++ dumpsListRest ind xs)

/-- One object member: quoted escaped key, `: `, value. -/
def dumpsEntry (ind : Nat) : String × PyVal → List Char
  | (k, v) => '"' :: (escapeString k.data ++ ['"', ':', ' '] ++ dumpsVal ind v)

/-- The remaining members of a non-empty object. -/
def dumpsDictRest (ind : Nat) : List (String × PyVal) → List Char
  | [] => []
  | kv :: kvs => ',' :: '\n' :: (spaces ind ++ dumpsEntry ind kv ++ dumpsDictRest ind kvs)

end

/-- `json.dumps(v, indent=2)` as a string. -/
def dumps (v : PyVal) : String := String.mk (dumpsVal 0 v)

/-- JSON insignificant whitespace. -/
def jsonWs (c : Char) : Bool := c = ' ' || c = '\n' || c = '\t' || c = '\r'

/-- Skip insignificant whitespace. -/
def skipWs (cs : List Char) : List Char := cs.dropWhile jsonWs

/-- Value of one hexadecimal digit character. -/
def hexVal (c : Char) : Option Nat :=
  if 48 ≤ c.toNat ∧ c.toNat ≤ 57 then some (c.toNat - 48)
  else if 97 ≤ c.toNat ∧ c.toNat ≤ 102 then some (c.toNat - 87)
  else if 65 ≤ c.toNat ∧ c.toNat ≤ 70 then some (c.toNat - 55)
  else Option.none

/-- The single-character JSON string escapes. -/
def unescapeChar (c : Char) : Option Char :=
  if c = '"' then some '"'
  else if c = '\\' then some '\\'
  else if c = '/' then some '/'
  else if c = 'n' then some '\n'
  else if c = 't' then some '\t'
  else if c = 'r' then some '\r'
  else if c = 'b' then some (Char.ofNat 8)
  else if c = 'f' then some (Char.ofNat 12)
  else Option.none

/-- Parse the body of a JSON string literal after the opening quote, up to
and consuming the closing quote; handles the escapes and, per the strict mode
of `json.load`, rejects raw control characters. -/
def parseStringBody : List Char → Option (List Char × List Char)
  | [] => Option.none
  | c :: rest =>
    if c = '"' then some ([], rest)
    else if c = '\\' then
      match rest with
      | 'u' :: h1 :: h2 :: h3 :: h4 :: r2 =>
        match hexVal h1, hexVal h2, hexVal h3, hexVal h4 with
        | some v1, some v2, some v3, some v4 =>
          match parseStringBody r2 with
          | some (s, r3) =>
            some (Char.ofNat (v1 * 4096 + v2 * 256 + v3 * 16 + v4) :: s, r3)
          | Option.none => Option.none
        | _, _, _, _ => Option.none
      | e :: r2 =>
        match unescapeChar e with
        | some d =>
          match parseStringBody r2 with
          | some (s, r3) => some (d :: s, r3)
          | Option.none => Option.none
        | Option.none => Option.none
      | [] => Option.none
    else if c.toNat < 32 then Option.none
    else
      match parseStringBody rest with
      | some (s, r2) => some (c :: s, r2)
      | Option.none => Option.none

/-- Split off a maximal run of decimal digits. -/
def parseDigits (cs : List Char) : List Char × List Char :=
  (cs.takeWhile Char.isDigit, cs.dropWhile Char.isDigit)

/-- Value of a digit run. -/
def digitsToNat (ds : List Char) : Nat :=
  ds.foldl (fun a c => a * 10 + (c.toNat - 48)) 0

mutual

/-- Recursive-descent JSON value parser (the grammar `json.load` accepts,
restricted to the value forms of the model: floats, which occur nowhere in
the verified scenarios, are not parsed).  Runs on fuel; every finite input
parses within fuel proportional to its size. -/
def parseVal : Nat → List Char → Option (PyVal × List Char)
  | 0, _ => Option.none
  | Nat.succ fuel, cs =>
    match skipWs cs with
    | 'n' :: 'u' :: 'l' :: 'l' :: r => some (.none, r)
    | 't' :: 'r' :: 'u' :: 'e' :: r => some (.bool true, r)
    | 'f' :: 'a' :: 'l' :: 's' :: 'e' :: r => some (.bool false, r)
    | '"' :: r =>
      match parseStringBody r with
      | some (s, r2) => some (.str (String.mk s), r2)
      | Option.none => Option.none
    | '[' :: r => parseListBody fuel (skipWs r)
    | '-' :: r =>
      match parseDigits r with
      | ([], _) => Option.none
      | (ds, r2) => some (.int (-(digitsToNat ds : Int)), r2)
    | c :: r =>
      if c = Char.ofNat 123 then parseDictBody fuel (skipWs r)
      else if c.isDigit then
        match parseDigits (c :: r) with
        | (ds, r2) => some (.int (digitsToNat ds), r2)
      else Option.none
    | [] => Option.none

/-- After `[` and whitespace: empty array or first element then the rest. -/
def parseListBody : Nat → List Char → Option (PyVal × List Char)
  | 0, _ => Option.none
  | Nat.succ fuel, cs =>
    match cs with
    | ']' :: r => some (.list [], r)
    | _ =>
      match parseVal fuel cs with
      | some (x, r2) =>
        match parseListRest fuel r2 with
        | some (xs, r3) => some (.list (x :: xs), r3)
        | Option.none => Option.none
      | Option.none => Option.none

/-- After an array element: `,` and another element, or `]`. -/
def parseListRest : Nat → List Char → Option (List PyVal × List Char)
  | 0, _ => Option.none
  | Nat.succ fuel, cs =>
    match skipWs cs with
    | ']' :: r => some ([], r)
    | ',' :: r =>
      match parseVal fuel r with
      | some (x, r2) =>
        match parseListRest fuel r2 with
        | some (xs, r3) => some (x :: xs, r3)
        | Option.none => Option.none
      | Option.none => Option.none
    | _ => Option.none

/-- One object member starting at its opening quote's successor: key body,
`:`, value. -/
def parseEntryAfterQuote : Nat → List Char → Option ((String × PyVal) × List Char)
  | 0, _ => Option.none
  | Nat.succ fuel, r =>
    match parseStringBody r with
    | some (k, r2) =>
      match skipWs r2 with
      | ':' :: r3 =>
        match parseVal fuel r3 with
        | some (v, r4) => some ((String.mk k, v), r4)
        | Option.none => Option.none
      | _ => Option.none
    | Option.none => Option.none

/-- After `{` and whitespace: empty object or first member then the rest. -/
def parseDictBody : Nat → List Char → Option (PyVal × List Char)
  | 0, _ => Option.none
  | Nat.succ fuel, cs =>
    match cs with
    | c :: r =>
      if c = Char.ofNat 125 then some (.dict [], r)
      else if c = '"' then
        match parseEntryAfterQuote fuel r with
        | some (kv, r2) =>
          match parseDictRest fuel r2 with
          | some (kvs, r3) => some (.dict (kv :: kvs), r3)
          | Option.none => Option.none
        | Option.none => Option.none
      else Option.none
    | [] => Option.none

/-- After an object member: `,` and another member, or `}`. -/
def parseDictRest : Nat → List Char → Option (List (String × PyVal) × List Char)
  | 0, _ => Option.none
  | Nat.succ fuel, cs =>
    match skipWs cs with
    | c :: r =>
      if c = Char.ofNat 125 then some ([], r)
      else if c = ',' then
        match skipWs r with
        | '"' :: r2 =>
          match parseEntryAfterQuote fuel r2 with
          | some (kv, r3) =>
            match parseDictRest fuel r3 with
            | some (kvs, r4) => some (kv :: kvs, r4)
            | Option.none => Option.none
          | Option.none => Option.none
        | _ => Option.none
      else Option.none
    | [] => Option.none

end

/-- `json.load` on a whole document: one value, optionally surrounded by
whitespace, nothing else.  The fuel is sufficient for any input of this
length. -/
def loads (s : String) : Option PyVal :=
  match parseVal (2 * s.length + 2) s.data with
  | some (v, rest) => if (skipWs rest).isEmpty then some v else Option.none
  | Option.none => Option.none

mutual

/-- Fuel sufficient for `parseVal` to parse the printed form of a value. -/
def pvFuel : PyVal → Nat
  | .none => 1
  | .bool _ => 1
  | .int _ => 1
  | .str _ => 1
  | .list xs => 1 + pvFuelList xs
  | .dict kvs => 1 + pvFuelDict kvs

/-- Fuel sufficient for `parseListRest` on the printed tail of an array. -/
def pvFuelList : List PyVal → Nat
  | [] => 1
  | x :: xs => 2 + pvFuel x + pvFuelList xs

/-- Fuel sufficient for `parseDictRest` on the printed tail of an object. -/
def pvFuelDict : List (String × PyVal) → Nat
  | [] => 1
  | kv :: kvs => 3 + pvFuel kv.2 + pvFuelDict kvs

end

theorem skipWs_not_ws (c : Char) (t : List Char) (h : jsonWs c = false) :
    skipWs (c :: t) = c :: t := by
  simp [skipWs, List.dropWhile, h]

theorem skipWs_cons_ws (c : Char) (t : List Char) (h : jsonWs c = true) :
    skipWs (c :: t) = skipWs t := by
  simp [skipWs, List.dropWhile, h]

theorem skipWs_spaces (n : Nat) (t : List Char) : skipWs (spaces n ++ t) = skipWs t := by
  induction n with
  | zero => simp [spaces]
  | succ m ih =>
    have : spaces (m + 1) ++ t = ' ' :: (spaces m ++ t) := by
      simp [spaces, List.replicate]
    rw [this, skipWs_cons_ws ' ' _ (by decide)]
    exact ih

theorem skipWs_newline (t : List Char) : skipWs ('\n' :: t) = skipWs t :=
  skipWs_cons_ws '\n' t (by decide)

theorem digit_char_spec : ∀ d : Nat, d < 10 →
    (Char.ofNat (48 + d)).isDigit = true ∧ (Char.ofNat (48 + d)).toNat = 48 + d ∧
    jsonWs (Char.ofNat (48 + d)) = false := by decide

theorem hex_digit_spec : ∀ m : Nat, m < 16 → hexVal (hexDigitChar m) = some m := by decide

theorem digit_ne_special (c : Char) (h : c.isDigit = true) :
    c ≠ 'n' ∧ c ≠ 't' ∧ c ≠ 'f' ∧ c ≠ '"' ∧ c ≠ '[' ∧ c ≠ '-' ∧
    c ≠ Char.ofNat 123 ∧ jsonWs c = false ∧ c ≠ ']' ∧ c ≠ ',' ∧
    c ≠ Char.ofNat 125 ∧ c ≠ ':' := by
  refine ⟨?_, ?_, ?_, ?_, ?_, ?_, ?_, ?_, ?_, ?_, ?_, ?_⟩
  all_goals first
  | (intro heq; subst heq; exact absurd h (by decide))
  | (by_cases hws : jsonWs c = true
     · simp only [jsonWs, Bool.or_eq_true, decide_eq_true_eq] at hws
       rcases hws with ((h1 | h1) | h1) | h1 <;> (subst h1; exact absurd h (by decide))
     · simpa using hws)

theorem natToDigits_spec : ∀ n : Nat,
    natToDigits n ≠ [] ∧ (∀ c ∈ natToDigits n, c.isDigit = true) ∧
    digitsToNat (natToDigits n) = n := by
  intro n
  induction n using Nat.strong_induction_on with
  | _ n ih =>
    by_cases h : n < 10
    · rw [natToDigits, if_pos h]
      obtain ⟨hd, ht, _⟩ := digit_char_spec n h
      refine ⟨by simp, ?_, ?_⟩
      · intro c hc
        simp only [List.mem_singleton] at hc
        subst hc; exact hd
      · simp [digitsToNat, ht]
    · rw [natToDigits, if_neg h]
      obtain ⟨hne, hdigs, hval⟩ := ih (n / 10) (Nat.div_lt_self (by omega) (by omega))
      have h10 : n % 10 < 10 := Nat.mod_lt _ (by omega)
      obtain ⟨hd, ht, _⟩ := digit_char_spec (n % 10) h10
      refine ⟨by simp, ?_, ?_⟩
      · intro c hc
        rcases List.mem_append.1 hc with hc | hc
        · exact hdigs c hc
        · simp only [List.mem_singleton] at hc
          subst hc; exact hd
      · have hfold : digitsToNat (natToDigits (n / 10) ++ [Char.ofNat (48 + n % 10)]) =
            digitsToNat (natToDigits (n / 10)) * 10 +
              ((Char.ofNat (48 + n % 10)).toNat - 48) := by
          simp [digitsToNat, List.foldl_append]
        rw [hfold, hval, ht]
        omega

/-- The character after a printed number must not be a digit for the maximal
digit run to stop there (true of every continuation the printer emits). -/
def numBoundary (rest : List Char) : Prop :=
  ∀ c t, rest = c :: t → c.isDigit = false

theorem parseDigits_exact (ds rest : List Char)
    (hds : ∀ c ∈ ds, c.isDigit = true) (hrest : numBoundary rest) :
    parseDigits (ds ++ rest) = (ds, rest) := by
  induction ds with
  | nil =>
    simp only [List.nil_append, parseDigits]
    match rest with
    | [] => rfl
    | c :: t =>
      have hc := hrest c t rfl
      simp [List.takeWhile, List.dropWhile, hc]
  | cons d ds ih =>
    have hd := hds d (by simp)
    have ih2 := ih (fun c hc => hds c (by simp [hc]))
    simp only [parseDigits] at ih2 ⊢
    simp [List.takeWhile, List.dropWhile, hd]
    simp only [Prod.mk.injEq] at ih2
    exact ih2

theorem parseStringBody_escape (s : List Char) : ∀ rest : List Char,
    parseStringBody (escapeString s ++ '"' :: rest) = some (s, rest) := by
  induction s with
  | nil =>
    intro rest
    have h : escapeString [] ++ '"' :: rest = '"' :: rest := by simp [escapeString]
    rw [h, parseStringBody.eq_def]
    simp
  | cons c s ih =>
    intro rest
    have hes : escapeString (c :: s) = escapeChar c ++ escapeString s := by
      simp [escapeString]
    rw [hes, List.append_assoc]
    unfold escapeChar
    split_ifs with h1 h2 h3 h4 h5 h6 h7 h8
    · subst h1
      rw [List.cons_append, List.cons_append, List.nil_append,
        parseStringBody.eq_def]
      simp [unescapeChar, ih rest]
    · subst h2
      rw [List.cons_append, List.cons_append, List.nil_append,
        parseStringBody.eq_def]
      simp [unescapeChar, ih rest]
    · subst h3
      rw [List.cons_append, List.cons_append, List.nil_append,
        parseStringBody.eq_def]
      simp [unescapeChar, ih rest]
    · subst h4
      rw [List.cons_append, List.cons_append, List.nil_append,
        parseStringBody.eq_def]
      simp [unescapeChar, ih rest]
    · subst h5
      rw [List.cons_append, List.cons_append, List.nil_append,
        parseStringBody.eq_def]
      simp [unescapeChar, ih rest]
    · have hc : c = Char.ofNat 8 := by rw [← h6, Char.ofNat_toNat]
      subst hc
      rw [List.cons_append, List.cons_append, List.nil_append,
        parseStringBody.eq_def]
      simp [unescapeChar, ih rest]
    · have hc : c = Char.ofNat 12 := by rw [← h7, Char.ofNat_toNat]
      subst hc
      rw [List.cons_append, List.cons_append, List.nil_append,
        parseStringBody.eq_def]
      simp [unescapeChar, ih rest]
    · have h16a : c.toNat / 16 < 16 := by omega
      have h16b : c.toNat % 16 < 16 := by omega
      have hx1 := hex_digit_spec _ h16a
      have hx2 := hex_digit_spec _ h16b
      have hzero : hexVal '0' = some 0 := by decide
      have hval : c.toNat / 16 * 16 + c.toNat % 16 = c.toNat := by omega
      rw [List.cons_append, parseStringBody.eq_def]
      simp [hzero, hx1, hx2, ih rest, hval, Char.ofNat_toNat]
    · rw [List.cons_append, parseStringBody.eq_def]
      simp [h1, h2, h8, ih rest]


theorem parseVal_int (n : Int) (rest : List Char) (fuel : Nat)
    (hrest : numBoundary rest) :
    parseVal (Nat.succ fuel) (intToChars n ++ rest) = some (.int n, rest) := by
  by_cases hneg : n < 0
  · obtain ⟨hne, hdigs, hval⟩ := natToDigits_spec (-n).toNat
    rw [intToChars, if_pos hneg, List.cons_append, parseVal.eq_def]
    simp only [skipWs_not_ws '-' _ (by decide)]
    have hpd := parseDigits_exact (natToDigits (-n).toNat) rest hdigs hrest
    obtain ⟨d, ds, hds⟩ := List.exists_cons_of_ne_nil hne
    rw [hds] at hpd
    simp only [List.cons_append] at hpd
    rw [hds]
    simp only [List.cons_append, hpd]
    have hn : -(((-n).toNat : Int)) = n := by omega
    rw [← hds, hval, hn]
  · obtain ⟨hne, hdigs, hval⟩ := natToDigits_spec n.toNat
    obtain ⟨d, ds, hds⟩ := List.exists_cons_of_ne_nil hne
    have hd : d.isDigit = true := hdigs d (by rw [hds]; exact List.mem_cons_self d ds)
    obtain ⟨hn1, hn2, hn3, hn4, hn5, hn6, hn7, hnws, _, _, _, _⟩ := digit_ne_special d hd
    have hpd := parseDigits_exact (natToDigits n.toNat) rest hdigs hrest
    rw [hds] at hpd
    simp only [List.cons_append] at hpd
    rw [intToChars, if_neg hneg, hds, List.cons_append, parseVal.eq_def]
    simp only [skipWs_not_ws d _ hnws]
    split
    · rename_i heq; rw [List.cons.injEq] at heq; exact absurd heq.1 hn1
    · rename_i heq; rw [List.cons.injEq] at heq; exact absurd heq.1 hn2
    · rename_i heq; rw [List.cons.injEq] at heq; exact absurd heq.1 hn3
    · rename_i heq; rw [List.cons.injEq] at heq; exact absurd heq.1 hn4
    · rename_i heq; rw [List.cons.injEq] at heq; exact absurd heq.1 hn5
    · rename_i heq; rw [List.cons.injEq] at heq; exact absurd heq.1 hn6
    · rename_i c r heq
      rw [List.cons.injEq] at heq
      obtain ⟨hc, hr⟩ := heq
      subst hc
      rw [if_neg hn7, if_pos hd]
      rw [hr] at hpd
      simp only [hpd]
      have hnn : (n.toNat : Int) = n := by omega
      rw [← hds, hval, hnn]
    · rename_i heq; exact absurd heq (by simp)


theorem pvFuel_pos (v : PyVal) : 1 ≤ pvFuel v := by
  cases v <;> simp [pvFuel]

theorem pvFuelDict_pos (kvs : List (String × PyVal)) : 1 ≤ pvFuelDict kvs := by
  cases kvs with
  | nil => simp [pvFuelDict]
  | cons kv kvs => simp [pvFuelDict]; omega

theorem parseVal_congr_ws (fuel : Nat) (cs cs2 : List Char)
    (h : skipWs cs = skipWs cs2) : parseVal fuel cs = parseVal fuel cs2 := by
  match fuel with
  | 0 => rfl
  | Nat.succ f => rw [parseVal.eq_def, parseVal.eq_def]; simp only [h]

theorem pvFuelList_pos (xs : List PyVal) : 1 ≤ pvFuelList xs := by
  cases xs with
  | nil => simp [pvFuelList]
  | cons x xs => simp [pvFuelList]; omega

theorem parseListBody_cons (fuel : Nat) (c : Char) (r : List Char) (h : c ≠ ']') :
    parseListBody (Nat.succ fuel) (c :: r) =
      (match parseVal fuel (c :: r) with
       | some (x, r2) =>
         match parseListRest fuel r2 with
         | some (xs, r3) => some (.list (x :: xs), r3)
         | Option.none => Option.none
       | Option.none => Option.none) := by
  show (match c :: r with
    | ']' :: r2 => some (PyVal.list [], r2)
    | _ =>
      match parseVal fuel (c :: r) with
      | some (x, r2) =>
        match parseListRest fuel r2 with
        | some (xs, r3) => some (PyVal.list (x :: xs), r3)
        | Option.none => Option.none
      | Option.none => Option.none) = _
  split
  · rename_i heq
    rw [List.cons.injEq] at heq
    exact absurd heq.1 h
  · rfl

theorem dumpsVal_head (ind : Nat) (v : PyVal) :
    ∃ c t, dumpsVal ind v = c :: t ∧ jsonWs c = false ∧ c ≠ ']' := by
  match v with
  | .none => exact ⟨'n', ['u', 'l', 'l'], by simp [dumpsVal], by decide, by decide⟩
  | .bool true => exact ⟨'t', ['r', 'u', 'e'], by simp [dumpsVal], by decide, by decide⟩
  | .bool false =>
    exact ⟨'f', ['a', 'l', 's', 'e'], by simp [dumpsVal], by decide, by decide⟩
  | .str s =>
    exact ⟨'"', escapeString s.data ++ ['"'], by simp [dumpsVal], by decide, by decide⟩
  | .list [] => exact ⟨'[', [']'], by simp [dumpsVal], by decide, by decide⟩
  | .list (x :: xs) =>
    exact ⟨'[', '\n' :: (spaces (ind + 2) ++ dumpsVal (ind + 2) x
      ++ dumpsListRest (ind + 2) xs ++ '\n' :: (spaces ind ++ [']'])),
      by simp [dumpsVal], by decide, by decide⟩
  | .dict [] =>
    exact ⟨Char.ofNat 123, [Char.ofNat 125], by simp [dumpsVal], by decide, by decide⟩
  | .dict (kv :: kvs) =>
    exact ⟨Char.ofNat 123, '\n' :: (spaces (ind + 2) ++ dumpsEntry (ind + 2) kv
      ++ dumpsDictRest (ind + 2) kvs ++ '\n' :: (spaces ind ++ [Char.ofNat 125])),
      by simp [dumpsVal], by decide, by decide⟩
  | .int n =>
    by_cases hneg : n < 0
    · exact ⟨'-', natToDigits (-n).toNat,
        by simp [dumpsVal, intToChars, if_pos hneg], by decide, by decide⟩
    · obtain ⟨hne, hdigs, _⟩ := natToDigits_spec n.toNat
      obtain ⟨d, ds, hds⟩ := List.exists_cons_of_ne_nil hne
      have hd : d.isDigit = true := hdigs d (by rw [hds]; exact List.mem_cons_self d ds)
      obtain ⟨_, _, _, _, _, _, _, hnws, hrb, _, _, _⟩ := digit_ne_special d hd
      exact ⟨d, ds, by simp [dumpsVal, intToChars, if_neg hneg, hds], hnws, hrb⟩

theorem listRest_boundary (ind2 : Nat) (xs : List PyVal) (t : List Char) :
    numBoundary (dumpsListRest ind2 xs ++ '\n' :: t) := by
  cases xs with
  | nil =>
    intro c t2 heq
    simp only [dumpsListRest, List.nil_append, List.cons.injEq] at heq
    rw [← heq.1]; decide
  | cons x xs =>
    intro c t2 heq
    simp only [dumpsListRest, List.cons_append, List.cons.injEq] at heq
    rw [← heq.1]; decide

theorem dictRest_boundary (ind2 : Nat) (kvs : List (String × PyVal)) (t : List Char) :
    numBoundary (dumpsDictRest ind2 kvs ++ '\n' :: t) := by
  cases kvs with
  | nil =>
    intro c t2 heq
    simp only [dumpsDictRest, List.nil_append, List.cons.injEq] at heq
    rw [← heq.1]; decide
  | cons kv kvs =>
    intro c t2 heq
    simp only [dumpsDictRest, List.cons_append, List.cons.injEq] at heq
    rw [← heq.1]; decide

theorem parseVal_brace (f : Nat) (r : List Char) :
    parseVal (Nat.succ f) (Char.ofNat 123 :: r) = parseDictBody f (skipWs r) := by
  rw [parseVal.eq_def]
  simp only [skipWs_not_ws (Char.ofNat 123) _ (by decide)]
  split
  · rename_i heq; rw [List.cons.injEq] at heq; exact absurd heq.1 (by decide)
  · rename_i heq; rw [List.cons.injEq] at heq; exact absurd heq.1 (by decide)
  · rename_i heq; rw [List.cons.injEq] at heq; exact absurd heq.1 (by decide)
  · rename_i heq; rw [List.cons.injEq] at heq; exact absurd heq.1 (by decide)
  · rename_i heq; rw [List.cons.injEq] at heq; exact absurd heq.1 (by decide)
  · rename_i heq; rw [List.cons.injEq] at heq; exact absurd heq.1 (by decide)
  · rename_i c r2 heq
    rw [List.cons.injEq] at heq
    obtain ⟨hc, hr⟩ := heq
    subst hc
    rw [if_pos rfl, hr]
  · rename_i heq; exact absurd heq (by simp)

theorem parseEntryAfterQuote_succ (m : Nat) (r : List Char) :
    parseEntryAfterQuote (Nat.succ m) r =
      (match parseStringBody r with
       | some (k, r2) =>
         match skipWs r2 with
         | ':' :: r3 =>
           match parseVal m r3 with
           | some (v, r4) => some ((String.mk k, v), r4)
           | Option.none => Option.none
         | _ => Option.none
       | Option.none => Option.none) := by
  rw [parseEntryAfterQuote.eq_def]

theorem parseListRest_succ (g : Nat) (cs : List Char) :
    parseListRest (Nat.succ g) cs =
      (match skipWs cs with
       | ']' :: r => some ([], r)
       | ',' :: r =>
         match parseVal g r with
         | some (x, r2) =>
           match parseListRest g r2 with
           | some (xs, r3) => some (x :: xs, r3)
           | Option.none => Option.none
         | Option.none => Option.none
       | _ => Option.none) := by
  rw [parseListRest.eq_def]

theorem parseDictRest_succ (g : Nat) (cs : List Char) :
    parseDictRest (Nat.succ g) cs =
      (match skipWs cs with
       | c :: r =>
         if c = Char.ofNat 125 then some ([], r)
         else if c = ',' then
           match skipWs r with
           | '"' :: r2 =>
             match parseEntryAfterQuote g r2 with
             | some (kv, r3) =>
               match parseDictRest g r3 with
               | some (kvs, r4) => some (kv :: kvs, r4)
               | Option.none => Option.none
             | Option.none => Option.none
           | _ => Option.none
         else Option.none
       | [] => Option.none) := by
  rw [parseDictRest.eq_def]

theorem roundtrip_strong : ∀ N : Nat,
    (∀ v : PyVal, pvFuel v ≤ N → ∀ (ind : Nat) (rest : List Char) (fuel : Nat),
      pvFuel v ≤ fuel → numBoundary rest →
      parseVal fuel (dumpsVal ind v ++ rest) = some (v, rest)) ∧
    (∀ xs : List PyVal, pvFuelList xs ≤ N →
      ∀ (ind2 ind : Nat) (rest : List Char) (fuel : Nat), pvFuelList xs ≤ fuel →
      parseListRest fuel (dumpsListRest ind2 xs ++ '\n' :: (spaces ind ++ ']' :: rest)) =
        some (xs, rest)) ∧
    (∀ kvs : List (String × PyVal), pvFuelDict kvs ≤ N →
      ∀ (ind2 ind : Nat) (rest : List Char) (fuel : Nat), pvFuelDict kvs ≤ fuel →
      parseDictRest fuel
        (dumpsDictRest ind2 kvs ++ '\n' :: (spaces ind ++ Char.ofNat 125 :: rest)) =
        some (kvs, rest)) := by
  intro N
  induction N using Nat.strong_induction_on with
  | _ N ih =>
    refine ⟨?_, ?_, ?_⟩
    · intro v hN ind rest fuel hfuel hrest
      obtain ⟨f, rfl⟩ : ∃ f, fuel = f + 1 :=
        ⟨fuel - 1, by have := pvFuel_pos v; omega⟩
      match v with
      | .none =>
        simp only [dumpsVal, List.cons_append, List.nil_append]
        rw [parseVal.eq_def]
        simp only [skipWs_not_ws 'n' _ (by decide)]
      | .bool true =>
        simp only [dumpsVal, List.cons_append, List.nil_append]
        rw [parseVal.eq_def]
        simp only [skipWs_not_ws 't' _ (by decide)]
      | .bool false =>
        simp only [dumpsVal, List.cons_append, List.nil_append]
        rw [parseVal.eq_def]
        simp only [skipWs_not_ws 'f' _ (by decide)]
      | .int n => exact parseVal_int n rest f hrest
      | .str s =>
        simp only [dumpsVal, List.cons_append, List.append_assoc, List.nil_append]
        rw [parseVal.eq_def]
        simp only [skipWs_not_ws '"' _ (by decide)]
        simp [parseStringBody_escape s.data rest]
      | .list [] =>
        simp only [dumpsVal, List.cons_append, List.nil_append]
        rw [parseVal.eq_def]
        simp only [skipWs_not_ws '[' _ (by decide)]
        obtain ⟨g, hg⟩ : ∃ g, f = g + 1 := by
          simp [pvFuel, pvFuelList] at hfuel
          exact ⟨f - 1, by omega⟩
        subst hg
        simp only [skipWs_not_ws ']' _ (by decide)]
        rw [parseListBody.eq_def]
        simp
      | .list (x :: xs) =>
        simp only [dumpsVal, List.cons_append, List.append_assoc, List.nil_append]
        rw [parseVal.eq_def]
        simp only [skipWs_not_ws '[' _ (by decide)]
        have hfl : pvFuel (PyVal.list (x :: xs)) = 3 + pvFuel x + pvFuelList xs := by
          simp [pvFuel, pvFuelList]; omega
        obtain ⟨g, hg⟩ : ∃ g, f = g + 1 := ⟨f - 1, by rw [hfl] at hfuel; omega⟩
        subst hg
        rw [skipWs_newline, skipWs_spaces]
        obtain ⟨c, t, hct, hws, hrb⟩ := dumpsVal_head (ind + 2) x
        rw [hct, List.cons_append, skipWs_not_ws c _ hws, parseListBody_cons g c _ hrb,
          ← List.cons_append, ← hct]
        have hb : numBoundary (dumpsListRest (ind + 2) xs
            ++ '
' :: (spaces ind ++ ']' :: rest)) := by
          have := listRest_boundary (ind + 2) xs (spaces ind ++ ']' :: rest)
          simpa using this
        have hx := (ih (N - 1) (by have := pvFuel_pos x; rw [hfl] at hN; omega)).1 x
          (by rw [hfl] at hN; omega) (ind + 2)
          (dumpsListRest (ind + 2) xs ++ '
' :: (spaces ind ++ ']' :: rest)) g
          (by rw [hfl] at hfuel; omega) hb
        rw [hx]
        have hxs := (ih (N - 1) (by have := pvFuel_pos x; rw [hfl] at hN; omega)).2.1 xs
          (by rw [hfl] at hN; have := pvFuel_pos x; omega) (ind + 2) ind rest g
          (by rw [hfl] at hfuel; have := pvFuel_pos x; omega)
        simp only [hxs]
      | .dict [] =>
        simp only [dumpsVal, List.cons_append, List.nil_append]
        rw [parseVal_brace]
        obtain ⟨g, hg⟩ : ∃ g, f = g + 1 := by
          simp [pvFuel, pvFuelDict] at hfuel
          exact ⟨f - 1, by omega⟩
        subst hg
        rw [skipWs_not_ws (Char.ofNat 125) _ (by decide), parseDictBody.eq_def]
        simp
      | .dict (kv :: kvs) =>
        obtain ⟨k, w⟩ := kv
        simp only [dumpsVal, dumpsEntry, List.cons_append, List.append_assoc,
          List.nil_append]
        rw [parseVal_brace]
        have hfd : pvFuel (PyVal.dict ((k, w) :: kvs)) = 4 + pvFuel w + pvFuelDict kvs := by
          simp [pvFuel, pvFuelDict]; omega
        obtain ⟨g, hg⟩ : ∃ g, f = g + 1 := ⟨f - 1, by rw [hfd] at hfuel; omega⟩
        subst hg
        rw [skipWs_newline, skipWs_spaces]
        rw [skipWs_not_ws '"' _ (by decide), parseDictBody.eq_def]
        obtain ⟨m, hm⟩ : ∃ m, g = m + 1 := ⟨g - 1, by rw [hfd] at hfuel; omega⟩
        subst hm
        simp only [if_neg (by decide : ¬ ('"' : Char) = Char.ofNat 125), if_pos rfl,
          if_true]
        rw [show (m + 1 : Nat) = Nat.succ m from rfl, parseEntryAfterQuote_succ]
        rw [parseStringBody_escape k.data]
        simp only [skipWs_not_ws ':' _ (by decide)]
        have hwv := (ih (N - 1) (by have := pvFuel_pos w; rw [hfd] at hN; omega)).1 w
          (by rw [hfd] at hN; omega) (ind + 2)
          (dumpsDictRest (ind + 2) kvs ++ '\n' :: (spaces ind ++ Char.ofNat 125 :: rest)) m
          (by rw [hfd] at hfuel; omega)
          (by
            have := dictRest_boundary (ind + 2) kvs (spaces ind ++ Char.ofNat 125 :: rest)
            simpa using this)
        have hcw := parseVal_congr_ws m
          (' ' :: (dumpsVal (ind + 2) w ++ (dumpsDictRest (ind + 2) kvs
            ++ '\n' :: (spaces ind ++ Char.ofNat 125 :: rest))))
          (dumpsVal (ind + 2) w ++ (dumpsDictRest (ind + 2) kvs
            ++ '\n' :: (spaces ind ++ Char.ofNat 125 :: rest)))
          (skipWs_cons_ws ' ' _ (by decide))
        rw [hcw, hwv]
        have hkvs := (ih (N - 1) (by have := pvFuel_pos w; rw [hfd] at hN; omega)).2.2 kvs
          (by rw [hfd] at hN; have := pvFuel_pos w; omega) (ind + 2) ind rest (Nat.succ m)
          (by rw [hfd] at hfuel; have := pvFuel_pos w; omega)
        simp only [hkvs]
    · intro xs hN ind2 ind rest fuel hfuel
      obtain ⟨g, rfl⟩ : ∃ g, fuel = g + 1 :=
        ⟨fuel - 1, by have := pvFuelList_pos xs; omega⟩
      rw [show (g + 1 : Nat) = Nat.succ g from rfl, parseListRest_succ]
      match xs with
      | [] =>
        simp only [dumpsListRest, List.nil_append]
        simp only [skipWs_newline, skipWs_spaces, skipWs_not_ws ']' _ (by decide)]
      | x :: xs =>
        have hpx := pvFuel_pos x
        have hpl := pvFuelList_pos xs
        have hNexp : 2 + pvFuel x + pvFuelList xs ≤ N := by
          simpa [pvFuelList] using hN
        have hfexp : 2 + pvFuel x + pvFuelList xs ≤ g + 1 := by
          simpa [pvFuelList] using hfuel
        have hlt : N - 1 < N := by omega
        simp only [dumpsListRest, List.cons_append, List.append_assoc]
        simp only [skipWs_not_ws ',' _ (by decide)]
        have hx := (ih (N - 1) hlt).1 x (by omega) ind2
          (dumpsListRest ind2 xs ++ '\n' :: (spaces ind ++ ']' :: rest)) g
          (by omega)
          (by
            have := listRest_boundary ind2 xs (spaces ind ++ ']' :: rest)
            simpa using this)
        have hcw := parseVal_congr_ws g
          ('\n' :: (spaces ind2 ++ (dumpsVal ind2 x ++ (dumpsListRest ind2 xs
            ++ '\n' :: (spaces ind ++ ']' :: rest)))))
          (dumpsVal ind2 x ++ (dumpsListRest ind2 xs
            ++ '\n' :: (spaces ind ++ ']' :: rest)))
          (by rw [skipWs_newline, skipWs_spaces])
        rw [hcw, hx]
        have hxs := (ih (N - 1) hlt).2.1 xs (by omega) ind2 ind rest g (by omega)
        simp only [hxs]
    · intro kvs hN ind2 ind rest fuel hfuel
      obtain ⟨g, rfl⟩ : ∃ g, fuel = g + 1 :=
        ⟨fuel - 1, by have := pvFuelDict_pos kvs; omega⟩
      rw [show (g + 1 : Nat) = Nat.succ g from rfl, parseDictRest_succ]
      match kvs with
      | [] =>
        simp only [dumpsDictRest, List.nil_append]
        simp only [skipWs_newline, skipWs_spaces,
          skipWs_not_ws (Char.ofNat 125) _ (by decide)]
        simp
      | (k, w) :: kvs =>
        have hpw := pvFuel_pos w
        have hpd := pvFuelDict_pos kvs
        have hNexp : 3 + pvFuel w + pvFuelDict kvs ≤ N := by
          simpa [pvFuelDict] using hN
        have hfexp : 3 + pvFuel w + pvFuelDict kvs ≤ g + 1 := by
          simpa [pvFuelDict] using hfuel
        have hlt : N - 1 < N := by omega
        simp only [dumpsDictRest, dumpsEntry, List.cons_append, List.append_assoc,
          List.nil_append]
        simp only [skipWs_not_ws ',' _ (by decide)]
        simp only [if_neg (by decide : ¬ (',' : Char) = Char.ofNat 125), if_pos rfl,
          if_true]
        rw [skipWs_newline, skipWs_spaces, skipWs_not_ws '"' _ (by decide)]
        obtain ⟨m, rfl⟩ : ∃ m, g = m + 1 := ⟨g - 1, by omega⟩
        simp only [parseEntryAfterQuote_succ]
        rw [parseStringBody_escape k.data]
        simp only [skipWs_not_ws ':' _ (by decide)]
        have hwv := (ih (N - 1) hlt).1 w (by omega) ind2
          (dumpsDictRest ind2 kvs ++ '\n' :: (spaces ind ++ Char.ofNat 125 :: rest)) m
          (by omega)
          (by
            have := dictRest_boundary ind2 kvs (spaces ind ++ Char.ofNat 125 :: rest)
            simpa using this)
        have hcw := parseVal_congr_ws m
          (' ' :: (dumpsVal ind2 w ++ (dumpsDictRest ind2 kvs
            ++ '\n' :: (spaces ind ++ Char.ofNat 125 :: rest))))
          (dumpsVal ind2 w ++ (dumpsDictRest ind2 kvs
            ++ '\n' :: (spaces ind ++ Char.ofNat 125 :: rest)))
          (skipWs_cons_ws ' ' _ (by decide))
        rw [hcw, hwv]
        have hkvs := (ih (N - 1) hlt).2.2 kvs (by omega) ind2 ind rest (Nat.succ m)
          (by omega)
        simp only [hkvs]

theorem pvFuel_le_twice_length : ∀ N : Nat,
    (∀ v : PyVal, pvFuel v ≤ N → ∀ ind, pvFuel v ≤ 2 * (dumpsVal ind v).length) ∧
    (∀ xs : List PyVal, pvFuelList xs ≤ N →
      ∀ ind, pvFuelList xs ≤ 2 * (dumpsListRest ind xs).length + 1) ∧
    (∀ kvs : List (String × PyVal), pvFuelDict kvs ≤ N →
      ∀ ind, pvFuelDict kvs ≤ 2 * (dumpsDictRest ind kvs).length + 1) := by
  intro N
  induction N using Nat.strong_induction_on with
  | _ N ih =>
    refine ⟨?_, ?_, ?_⟩
    · intro v hN ind
      match v with
      | .none => simp [pvFuel, dumpsVal]
      | .bool true => simp [pvFuel, dumpsVal]
      | .bool false => simp [pvFuel, dumpsVal]
      | .str s =>
        simp only [pvFuel, dumpsVal, List.length_cons, List.length_append]
        omega
      | .int n =>
        have hlen : 1 ≤ (intToChars n).length := by
          unfold intToChars
          split
          · simp
          · obtain ⟨hne, _, _⟩ := natToDigits_spec n.toNat
            exact List.length_pos.mpr hne
        simp only [pvFuel, dumpsVal]
        omega
      | .list [] => simp [pvFuel, pvFuelList, dumpsVal]
      | .list (x :: xs) =>
        have hNexp : 3 + pvFuel x + pvFuelList xs ≤ N := by
          simp only [pvFuel, pvFuelList] at hN
          omega
        have hpx := pvFuel_pos x
        have hpl := pvFuelList_pos xs
        have hlt : N - 1 < N := by omega
        have hx := (ih (N - 1) hlt).1 x (by omega) (ind + 2)
        have hxs := (ih (N - 1) hlt).2.1 xs (by omega) (ind + 2)
        simp only [pvFuel, pvFuelList, dumpsVal, List.length_cons, List.length_append,
          spaces, List.length_replicate] at hx hxs ⊢
        omega
      | .dict [] => simp [pvFuel, pvFuelDict, dumpsVal]
      | .dict ((k, w) :: kvs) =>
        have hNexp : 4 + pvFuel w + pvFuelDict kvs ≤ N := by
          simp only [pvFuel, pvFuelDict] at hN
          omega
        have hpw := pvFuel_pos w
        have hpd := pvFuelDict_pos kvs
        have hlt : N - 1 < N := by omega
        have hw := (ih (N - 1) hlt).1 w (by omega) (ind + 2)
        have hkvs := (ih (N - 1) hlt).2.2 kvs (by omega) (ind + 2)
        simp only [pvFuel, pvFuelDict, dumpsVal, dumpsEntry, List.length_cons,
          List.length_append, spaces, List.length_replicate] at hw hkvs ⊢
        omega
    · intro xs hN ind
      match xs with
      | [] => simp [pvFuelList, dumpsListRest]
      | x :: xs =>
        have hNexp : 2 + pvFuel x + pvFuelList xs ≤ N := by
          simpa [pvFuelList] using hN
        have hpx := pvFuel_pos x
        have hpl := pvFuelList_pos xs
        have hlt : N - 1 < N := by omega
        have hx := (ih (N - 1) hlt).1 x (by omega) ind
        have hxs := (ih (N - 1) hlt).2.1 xs (by omega) ind
        simp only [pvFuelList, dumpsListRest, List.length_cons, List.length_append,
          spaces, List.length_replicate] at hx hxs ⊢
        omega
    · intro kvs hN ind
      match kvs with
      | [] => simp [pvFuelDict, dumpsDictRest]
      | (k, w) :: kvs =>
        have hNexp : 3 + pvFuel w + pvFuelDict kvs ≤ N := by
          simp only [pvFuelDict] at hN
          omega
        have hpw := pvFuel_pos w
        have hpd := pvFuelDict_pos kvs
        have hlt : N - 1 < N := by omega
        have hw := (ih (N - 1) hlt).1 w (by omega) ind
        have hkvs := (ih (N - 1) hlt).2.2 kvs (by omega) ind
        simp only [pvFuelDict, dumpsDictRest, dumpsEntry, List.length_cons,
          List.length_append, spaces, List.length_replicate] at hw hkvs ⊢
        omega

theorem loads_dumps (v : PyVal) : loads (dumps v) = some v := by
  have hlen : (dumps v).length = (dumpsVal 0 v).length := rfl
  have hfuel : pvFuel v ≤ 2 * (dumps v).length + 2 := by
    have := (pvFuel_le_twice_length (pvFuel v)).1 v le_rfl 0
    omega
  have hb : numBoundary ([] : List Char) := by
    intro c t heq
    exact absurd heq (by simp)
  have h := (roundtrip_strong (pvFuel v)).1 v le_rfl 0 [] (2 * (dumps v).length + 2)
    hfuel hb
  rw [List.append_nil] at h
  unfold loads
  have hdata : (dumps v).data = dumpsVal 0 v := rfl
  rw [hdata, h]
  simp [skipWs]

/-- The default variation template of the interactive create branch
(interactive.py:368-379 and 398-409). -/
def default_template : List PyVal :=
  [.dict [("name", .str "Production"),
     ("description", .str "Production configuration"),
     ("value", .dict [("tcp_port", .int 443)])],
   .dict [("name", .str "Development"),
     ("description", .str "Development configuration"),
     ("value", .dict [("tcp_port", .int 8080)])]]

/-- `flag_name.lower().replace(' ', '-')` (interactive.py:351), the suggested
flag key. -/
def pyReplaceSpaceDash (s : String) : String :=
  String.mk (s.data.map (fun c => if c = ' ' then '-' else c))

/-- The `while True` menu loop of `interactive_workflow`
(interactive.py:338-435).  `inputs` is the stream of answers to `input()`;
the loop re-prompts (consuming input) on an invalid choice or an empty flag
name.  `templateRes` is the outcome of the try block at
interactive.py:357-409 (the environment fetch and the per-environment
template construction), which catches every exception and falls back to the
default template, so only its resulting template is observable.
`editTemplate` is the outcome of `edit_json_in_editor` on the template
(its exceptions propagate); a created flag's variations travel through a
temporary file written with `json.dump` and read back by
`create_flag_workflow` with `json.load`, modelled by `loads (dumps vars)`.
The branch for choice `2` delegates to `update_flag_variations_workflow`
with the already selected project key.  Fuel bounds the number of loop
iterations; `none` means the input stream or the fuel ran out. -/
def interactive_menu_loop (pk : String)
    (templateRes : Except PyErr (List PyVal))
    (editTemplate : List PyVal → Except PyErr (Option PyVal))
    (createRes : Except PyErr PyVal)
    (getFlagsRes : Except PyErr (List PyVal)) (details : PyVal → Except PyErr PyVal)
    (flagSelection : Option Nat) (getFlagRes : Except PyErr PyVal)
    (editRes2 : Except PyErr (Option PyVal)) (confirmInput : String)
    (updateRes : Except PyErr PyVal) :
    Nat → List String → Option (Except PyErr Bool)
  | 0, _ => Option.none
  | _, [] => Option.none
  | Nat.succ fuel, choice :: rest =>
    if pyLower choice = "q" then some (.ok false)
    else if choice = "1" then
      match rest with
      | [] => Option.none
      | nameInput :: rest2 =>
        if nameInput.isEmpty then
          interactive_menu_loop pk templateRes editTemplate createRes getFlagsRes
            details flagSelection getFlagRes editRes2 confirmInput updateRes fuel rest2
        else
          match rest2 with
          | [] => Option.none
          | keyInput :: rest3 =>
            let suggested := pyReplaceSpaceDash (pyLower nameInput)
            let flag_key := if keyInput.isEmpty then suggested else keyInput
            if flag_key.isEmpty then
              interactive_menu_loop pk templateRes editTemplate createRes getFlagsRes
                details flagSelection getFlagRes editRes2 confirmInput updateRes
                fuel rest3
            else
              let template :=
                match templateRes with
                | .ok t => t
                | .error _ => default_template
              match editTemplate template with
              | .error e => some (.error e)
              | .ok Option.none => some (.ok false)
              | .ok (Option.some vars) =>
                if !vars.truthy then some (.ok false)
                else
                  let loadRes : Except PyErr PyVal :=
                    match loads (dumps vars) with
                    | Option.some v => .ok v
                    | Option.none => .error (.valueError "Expecting value")
                  some (create_flag_workflow (some pk) Option.none (.ok [])
                    Option.none loadRes createRes [])
    else if choice = "2" then
      some (update_flag_variations_workflow (some pk) (.ok []) Option.none getFlagsRes
        details flagSelection getFlagRes editRes2 confirmInput updateRes)
    else
      interactive_menu_loop pk templateRes editTemplate createRes getFlagsRes details
        flagSelection getFlagRes editRes2 confirmInput updateRes fuel rest

/-- `interactive_workflow` (interactive.py:315-435): selects a project —
`select_project`'s errors propagate, there is no handler — returns `False`
when the selection is cancelled, and otherwise runs the menu loop with the
selected key. -/
def interactive_workflow (getProjectsRes : Except PyErr (List PyVal))
    (projSelection : Option Nat) (inputs : List String)
    (templateRes : Except PyErr (List PyVal))
    (editTemplate : List PyVal → Except PyErr (Option PyVal))
    (createRes : Except PyErr PyVal)
    (getFlagsRes : Except PyErr (List PyVal)) (details : PyVal → Except PyErr PyVal)
    (flagSelection : Option Nat) (getFlagRes : Except PyErr PyVal)
    (editRes2 : Except PyErr (Option PyVal)) (confirmInput : String)
    (updateRes : Except PyErr PyVal) (fuel : Nat) : Option (Except PyErr Bool) :=
  match select_project getProjectsRes projSelection with
  | .error e => some (.error e)
  | .ok pkOpt =>
    if !optStrTruthy pkOpt then some (.ok false)
    else
      interactive_menu_loop (pkOpt.getD "") templateRes editTemplate createRes
        getFlagsRes details flagSelection getFlagRes editRes2 confirmInput updateRes
        fuel inputs

/-- C6 counterexample: the claim says the workflow functions catch every
validation or HTTP error raised by the client operations they invoke and
return `False` instead of propagating; but `select_project` calls
`client.get_projects()` outside any try block, so an HTTP 500 raised while
listing projects propagates out of `update_flag_variations_workflow` to its
caller instead of producing `False`. -/
theorem workflow_propagates_select_error :
    update_flag_variations_workflow Option.none (.error (.httpError 500)) Option.none
      (.ok []) (fun _ => .ok (.dict [])) Option.none (.ok (.dict []))
      (.ok Option.none) "n" (.ok (.dict [])) = .error (.httpError 500) := rfl

/-- C6 (amended): the three workflow functions catch the errors raised by
their try-wrapped client calls — the flag-detail fetch, the update call, the
variations-file load, the create call, each per-environment targeting call
and the environment/template block of the interactive create branch — and
return `False`, returning `True` on success; but errors raised by code that
runs outside any try block are not caught and propagate to the caller:
`get_projects` inside `select_project`, `get_feature_flags` inside
`select_flag`, the variation display loops of
`update_flag_variations_workflow`, and the editor invocation; and
`interactive_workflow` both starts with the same uncaught `select_project`
call and returns whatever the delegated workflow returns. -/
theorem workflow_error_handling_amended :
    (∀ (pk : Option String) gpr ps gfr det fs (fkey : String) (e : PyErr) er ci ur,
      optStrTruthy pk = true →
      select_flag gfr det fs = .ok (some fkey) →
      optStrTruthy (some fkey) = true →
      update_flag_variations_workflow pk gpr ps gfr det fs (.error e) er ci ur =
        .ok false) ∧
    (∀ (pk : Option String) gpr ps gfr det fs (fkey : String) (flag varsV ev : PyVal)
        (e : PyErr),
      optStrTruthy pk = true →
      select_flag gfr det fs = .ok (some fkey) →
      optStrTruthy (some fkey) = true →
      pyGet flag "variations" (.list []) = .ok varsV →
      varsV.truthy = true →
      displayVariations varsV = .ok () →
      ev.truthy = true →
      displayVariations ev = .ok () →
      update_flag_variations_workflow pk gpr ps gfr det fs (.ok flag)
        (.ok (some ev)) "y" (.error e) = .ok false) ∧
    (∀ (pk : Option String) gpr ps gfr det fs (fkey : String) (flag varsV ev u : PyVal),
      optStrTruthy pk = true →
      select_flag gfr det fs = .ok (some fkey) →
      optStrTruthy (some fkey) = true →
      pyGet flag "variations" (.list []) = .ok varsV →
      varsV.truthy = true →
      displayVariations varsV = .ok () →
      ev.truthy = true →
      displayVariations ev = .ok () →
      update_flag_variations_workflow pk gpr ps gfr det fs (.ok flag)
        (.ok (some ev)) "y" (.ok u) = .ok true) ∧
    (∀ (pk cpk : Option String) gpr ps (e : PyErr) cr env,
      optStrTruthy pk = true →
      create_flag_workflow pk cpk gpr ps (.error e) cr env = .ok false) ∧
    (∀ (pk cpk : Option String) gpr ps (vars : PyVal) (e : PyErr) env,
      optStrTruthy pk = true →
      create_flag_workflow pk cpk gpr ps (.ok vars) (.error e) env = .ok false) ∧
    (∀ (pk cpk : Option String) gpr ps (vars res : PyVal) env,
      optStrTruthy pk = true →
      create_flag_workflow pk cpk gpr ps (.ok vars) (.ok res) env = .ok true) ∧
    (∀ (pk_arg : Option String) ps gfr det fs gf er ci ur (e : PyErr),
      optStrTruthy pk_arg = false →
      update_flag_variations_workflow pk_arg (.error e) ps gfr det fs gf er ci ur =
        .error e) ∧
    (∀ (pk_arg client_pk : Option String) ps l c env (e : PyErr),
      optStrTruthy pk_arg = false →
      optStrTruthy client_pk = false →
      create_flag_workflow pk_arg client_pk (.error e) ps l c env = .error e) ∧
    (∀ (pk : Option String) gpr ps det fs gf er ci ur (e : PyErr),
      optStrTruthy pk = true →
      update_flag_variations_workflow pk gpr ps (.error e) det fs gf er ci ur =
        .error e) ∧
    (∀ (pk : Option String) gpr ps gfr det fs (fkey : String) (flag varsV : PyVal)
        (e : PyErr) er ci ur,
      optStrTruthy pk = true →
      select_flag gfr det fs = .ok (some fkey) →
      optStrTruthy (some fkey) = true →
      pyGet flag "variations" (.list []) = .ok varsV →
      varsV.truthy = true →
      displayVariations varsV = .error e →
      update_flag_variations_workflow pk gpr ps gfr det fs (.ok flag) er ci ur =
        .error e) ∧
    (∀ (pk : Option String) gpr ps gfr det fs (fkey : String) (flag varsV ev : PyVal)
        (e : PyErr) ci ur,
      optStrTruthy pk = true →
      select_flag gfr det fs = .ok (some fkey) →
      optStrTruthy (some fkey) = true →
      pyGet flag "variations" (.list []) = .ok varsV →
      varsV.truthy = true →
      displayVariations varsV = .ok () →
      ev.truthy = true →
      displayVariations ev = .error e →
      update_flag_variations_workflow pk gpr ps gfr det fs (.ok flag)
        (.ok (some ev)) ci ur = .error e) ∧
    (∀ gpr2 ps2 inputs tr et cr gfr det fs gf er2 ci ur (fuel : Nat) (e : PyErr),
      gpr2 = (.error e : Except PyErr (List PyVal)) →
      interactive_workflow gpr2 ps2 inputs tr et cr gfr det fs gf er2 ci ur fuel =
        some (.error e)) ∧
    (∀ gpr2 ps2 rest tr et cr gfr det fs gf er2 ci ur (f : Nat) (pk : String),
      select_project gpr2 ps2 = .ok (some pk) →
      optStrTruthy (some pk) = true →
      interactive_workflow gpr2 ps2 ("q" :: rest) tr et cr gfr det fs gf er2 ci ur
        (f + 1) = some (.ok false)) ∧
    (∀ gpr2 ps2 rest tr et cr gfr det fs gf er2 ci ur (f : Nat) (pk : String),
      select_project gpr2 ps2 = .ok (some pk) →
      optStrTruthy (some pk) = true →
      interactive_workflow gpr2 ps2 ("2" :: rest) tr et cr gfr det fs gf er2 ci ur
        (f + 1) =
        some (update_flag_variations_workflow (some pk) (.ok []) Option.none gfr det
          fs gf er2 ci ur)) ∧
    (∀ gpr2 ps2 (nameInput keyInput : String) rest (tmpl : List PyVal) et cr gfr det
        fs gf er2 ci ur (f : Nat) (pk : String) (vars : PyVal),
      select_project gpr2 ps2 = .ok (some pk) →
      optStrTruthy (some pk) = true →
      nameInput.isEmpty = false →
      keyInput.isEmpty = false →
      et tmpl = .ok (some vars) →
      vars.truthy = true →
      interactive_workflow gpr2 ps2 ("1" :: nameInput :: keyInput :: rest) (.ok tmpl)
        et cr gfr det fs gf er2 ci ur (f + 1) =
        some (create_flag_workflow (some pk) Option.none (.ok []) Option.none
          (.ok vars) cr [])) := by
  refine ⟨?_, ?_, ?_, ?_, ?_, ?_, ?_, ?_, ?_, ?_, ?_, ?_, ?_, ?_, ?_⟩
  · intro pk gpr ps gfr det fs fkey e er ci ur hpk hsel hfk
    simp [update_flag_variations_workflow, hpk, hsel, hfk, Bind.bind, Except.bind,
      pure, Except.pure]
  · intro pk gpr ps gfr det fs fkey flag varsV ev e hpk hsel hfk hvar hvt hd1 het hd2
    simp [update_flag_variations_workflow, hpk, hsel, hfk, hvar, hvt, hd1, het, hd2,
      Bind.bind, Except.bind, pure, Except.pure]
  · intro pk gpr ps gfr det fs fkey flag varsV ev u hpk hsel hfk hvar hvt hd1 het hd2
    simp [update_flag_variations_workflow, hpk, hsel, hfk, hvar, hvt, hd1, het, hd2,
      Bind.bind, Except.bind, pure, Except.pure]
    decide
  · intro pk cpk gpr ps e cr env hpk
    simp [create_flag_workflow, hpk, Bind.bind, Except.bind, pure, Except.pure]
  · intro pk cpk gpr ps vars e env hpk
    simp [create_flag_workflow, hpk, Bind.bind, Except.bind, pure, Except.pure]
  · intro pk cpk gpr ps vars res env hpk
    simp [create_flag_workflow, hpk, Bind.bind, Except.bind, pure, Except.pure]
  · intro pk_arg ps gfr det fs gf er ci ur e hpk
    simp [update_flag_variations_workflow, select_project, hpk, Bind.bind,
      Except.bind, pure, Except.pure]
  · intro pk_arg client_pk ps l c env e hpk hcpk
    simp [create_flag_workflow, select_project, hpk, hcpk, Bind.bind, Except.bind,
      pure, Except.pure]
  · intro pk gpr ps det fs gf er ci ur e hpk
    simp [update_flag_variations_workflow, select_flag, hpk, Bind.bind, Except.bind,
      pure, Except.pure]
  · intro pk gpr ps gfr det fs fkey flag varsV e er ci ur hpk hsel hfk hvar hvt hd1
    simp [update_flag_variations_workflow, hpk, hsel, hfk, hvar, hvt, hd1,
      Bind.bind, Except.bind, pure, Except.pure]
  · intro pk gpr ps gfr det fs fkey flag varsV ev e ci ur hpk hsel hfk hvar hvt hd1
      het hd2
    simp [update_flag_variations_workflow, hpk, hsel, hfk, hvar, hvt, hd1, het, hd2,
      Bind.bind, Except.bind, pure, Except.pure]
  · intro gpr2 ps2 inputs tr et cr gfr det fs gf er2 ci ur fuel e hgpr
    subst hgpr
    simp [interactive_workflow, select_project, Bind.bind, Except.bind]
  · intro gpr2 ps2 rest tr et cr gfr det fs gf er2 ci ur f pk hsel hpk
    have hq : pyLower "q" = "q" := by decide
    simp [interactive_workflow, hsel, hpk, interactive_menu_loop, hq]
  · intro gpr2 ps2 rest tr et cr gfr det fs gf er2 ci ur f pk hsel hpk
    have ha : ¬ pyLower "2" = "q" := by decide
    have hb : ¬ ("2" : String) = "1" := by decide
    simp [interactive_workflow, hsel, hpk, interactive_menu_loop, ha, hb]
  · intro gpr2 ps2 nameInput keyInput rest tmpl et cr gfr det fs gf er2 ci ur f pk
      vars hsel hpk hname hkey het2 hvt
    have ha : ¬ pyLower "1" = "q" := by decide
    simp only [interactive_workflow, hsel, hpk, Bool.not_true, Bool.false_eq_true,
      if_false, Option.getD_some]
    rw [show (f + 1 : Nat) = Nat.succ f from rfl]
    simp only [interactive_menu_loop, ha, if_neg ha, if_pos rfl, hname,
      Bool.false_eq_true, hkey, het2, hvt, Bool.not_true, loads_dumps]
    simp [hkey]

/-- Witness for C6 (amended): concrete runs exercising a caught error, a
propagating selection error, a propagating display-loop error, and the
interactive menu. -/
theorem workflow_error_handling_amended_witness :
    update_flag_variations_workflow (some "p") (.ok []) Option.none
      (.ok [.dict [("key", .str "f"),
        ("variations", .list [.dict [("value", .dict [("tcp_port", .int 1)])]])]])
      (fun f => .ok f) (some 0) (.error (.httpError 500)) (.ok Option.none) "n"
      (.ok (.dict [])) = .ok false ∧
    create_flag_workflow (some "p") Option.none (.ok []) Option.none
      (.error (.valueError "bad file")) (.ok (.dict [])) [] = .ok false ∧
    update_flag_variations_workflow Option.none (.error (.valueError "boom"))
      Option.none (.ok []) (fun _ => .ok (.dict [])) Option.none (.ok (.dict []))
      (.ok Option.none) "x" (.ok (.dict [])) = .error (.valueError "boom") ∧
    update_flag_variations_workflow (some "p") (.ok []) Option.none
      (.ok [.dict [("key", .str "f"),
        ("variations", .list [.dict [("value", .dict [("tcp_port", .int 1)])]])]])
      (fun f => .ok f) (some 0) (.ok (.dict [("variations", .int 7)]))
      (.ok Option.none) "n" (.ok (.dict [])) = .error (.typeError "not iterable") ∧
    interactive_workflow (.ok [.dict [("key", .str "p"), ("name", .str "P")]])
      (some 0) ["q"] (.ok []) (fun _ => .ok Option.none) (.ok (.dict [])) (.ok [])
      (fun f => .ok f) Option.none (.ok (.dict [])) (.ok Option.none) "n"
      (.ok (.dict [])) 1 = some (.ok false) ∧
    interactive_workflow (.ok [.dict [("key", .str "p"), ("name", .str "P")]])
      (some 0) ["2"] (.ok []) (fun _ => .ok Option.none) (.ok (.dict [])) (.ok [])
      (fun f => .ok f) Option.none (.ok (.dict [])) (.ok Option.none) "n"
      (.ok (.dict [])) 1 =
      some (update_flag_variations_workflow (some "p") (.ok []) Option.none (.ok [])
        (fun f => .ok f) Option.none (.ok (.dict [])) (.ok Option.none) "n"
        (.ok (.dict []))) := by
  refine ⟨?_, ?_, ?_, ?_, ?_, ?_⟩
  · exact workflow_error_handling_amended.1 (some "p") (.ok []) Option.none
      (.ok [.dict [("key", .str "f"),
        ("variations", .list [.dict [("value", .dict [("tcp_port", .int 1)])]])]])
      (fun f => .ok f) (some 0) "f" (.httpError 500) (.ok Option.none) "n"
      (.ok (.dict [])) rfl rfl rfl
  · exact workflow_error_handling_amended.2.2.2.1 (some "p") Option.none (.ok [])
      Option.none (.valueError "bad file") (.ok (.dict [])) [] rfl
  · exact workflow_error_handling_amended.2.2.2.2.2.2.1 Option.none Option.none
      (.ok []) (fun _ => .ok (.dict [])) Option.none (.ok (.dict []))
      (.ok Option.none) "x" (.ok (.dict [])) (.valueError "boom") rfl
  · exact workflow_error_handling_amended.2.2.2.2.2.2.2.2.2.1 (some "p") (.ok [])
      Option.none
      (.ok [.dict [("key", .str "f"),
        ("variations", .list [.dict [("value", .dict [("tcp_port", .int 1)])]])]])
      (fun f => .ok f) (some 0) "f" (.dict [("variations", .int 7)]) (.int 7)
      (.typeError "not iterable") (.ok Option.none) "n" (.ok (.dict []))
      rfl rfl rfl rfl rfl rfl
  · exact workflow_error_handling_amended.2.2.2.2.2.2.2.2.2.2.2.2.1
      (.ok [.dict [("key", .str "p"), ("name", .str "P")]]) (some 0) [] (.ok [])
      (fun _ => .ok Option.none) (.ok (.dict [])) (.ok []) (fun f => .ok f)
      Option.none (.ok (.dict [])) (.ok Option.none) "n" (.ok (.dict [])) 0 "p"
      rfl rfl
  · exact workflow_error_handling_amended.2.2.2.2.2.2.2.2.2.2.2.2.2.1
      (.ok [.dict [("key", .str "p"), ("name", .str "P")]]) (some 0) [] (.ok [])
      (fun _ => .ok Option.none) (.ok (.dict [])) (.ok []) (fun f => .ok f)
      Option.none (.ok (.dict [])) (.ok Option.none) "n" (.ok (.dict [])) 0 "p"
      rfl rfl

/-- `edit_json_in_editor` (interactive.py:111-174): writes
`json.dumps(json_data, indent=2)` to a fresh temporary file (created with
`delete=False`), runs the editor as a blocking subprocess, reads the file
back, parses it with `json.load` (a `JSONDecodeError` is caught, printed,
and turned into `None`), and removes the temporary file in a `finally`
block, so other exceptions propagate only after the unlink.  `tempPath` is
the fresh path chosen by `tempfile`; `editorRes` is the outcome of
`subprocess.call`; `readEdited` maps the written content to the outcome of
reading the file after the editor ran (capturing both the user's edit and a
possible read error).  Returns the result paired with the files left on
disk. -/
def edit_json_in_editor (tempPath : String) (json_data : PyVal)
    (editorRes : Except PyErr Unit) (readEdited : String → Except PyErr String)
    (fs : List String) : Except PyErr (Option PyVal) × List String :=
  let fs1 := tempPath :: fs
  let written := dumps json_data
  let body : Except PyErr (Option PyVal) :=
    match editorRes with
    | .error e => .error e
    | .ok _ =>
      match readEdited written with
      | .error e => .error e
      | .ok content =>
        match loads content with
        | some v => .ok (some v)
        | Option.none => .ok Option.none
  (body, fs1.erase tempPath)

/-- The serializer/parser round trip at the heart of C7: reparsing the
serialized form of any JSON value of the model returns a structurally equal
value. -/
theorem loads_dumps_id (v : PyVal) : loads (dumps v) = some v := loads_dumps v

/-- C7: when the editor leaves the temporary file unchanged,
`edit_json_in_editor` returns exactly the value it was given: the content
written is `json.dumps(json_data, indent=2)` and reparsing it yields a
structurally equal value, for every JSON value of the model. -/
theorem edit_json_in_editor_identity (tempPath : String) (json_data : PyVal)
    (fs : List String) :
    (edit_json_in_editor tempPath json_data (.ok ()) (fun c => .ok c) fs).1 =
      .ok (some json_data) := by
  simp [edit_json_in_editor, loads_dumps]

/-- C8: the temporary file is removed before `edit_json_in_editor` finishes
in every outcome — successful parse, invalid JSON, and an editor or read
exception alike (the oracles range over all of them): the files on disk
afterwards are exactly the files present before, and in particular the
temporary file is gone. -/
theorem edit_json_in_editor_cleanup (tempPath : String) (json_data : PyVal)
    (editorRes : Except PyErr Unit) (readEdited : String → Except PyErr String)
    (fs : List String) :
    (edit_json_in_editor tempPath json_data editorRes readEdited fs).2 = fs ∧
    (tempPath ∉ fs →
      tempPath ∉ (edit_json_in_editor tempPath json_data editorRes readEdited fs).2) := by
  have h : (edit_json_in_editor tempPath json_data editorRes readEdited fs).2 = fs := by
    simp [edit_json_in_editor]
  exact ⟨h, fun hnot => by rw [h]; exact hnot⟩

/-- Witness for C8: with a failing editor, the temporary file is still gone
afterwards. -/
theorem edit_json_in_editor_cleanup_witness :
    (edit_json_in_editor "/tmp/vars.json" (.dict [])
      (.error (.valueError "editor crashed")) (fun c => .ok c) []).2 = [] ∧
    "/tmp/vars.json" ∉
      (edit_json_in_editor "/tmp/vars.json" (.dict [])
        (.error (.valueError "editor crashed")) (fun c => .ok c) []).2 := by
  refine ⟨?_, ?_⟩
  · exact (edit_json_in_editor_cleanup "/tmp/vars.json" (.dict [])
      (.error (.valueError "editor crashed")) (fun c => .ok c) []).1
  · exact (edit_json_in_editor_cleanup "/tmp/vars.json" (.dict [])
      (.error (.valueError "editor crashed")) (fun c => .ok c) []).2 (by simp)
